import Mathlib

/-!
Verification development for the `legend-simflow-mage` PDF-building scripts.

The definitions below are a shallow embedding of `scripts/build_pdf.py`
(and the mage-id encoder of `scripts/make_tier_evt_config_file.py`).

Modelling conventions:
* Python exceptions (KeyError, ValueError, IndexError, RuntimeError) are
  modelled with `Except String`; an uncaught exception terminates the run,
  which corresponds to the whole pipeline returning `Except.error`.
* Energies are floats in the source; they are modelled as integers (an
  arbitrary rescaling of the detector unit).  Every operation the pipeline
  applies to energies — threshold comparison, per-event min/max/sum,
  equality selection and the exact unit conversion `* 1000` — is
  ordered-commutative-ring arithmetic, so nothing in the embedded control
  flow depends on divisibility; `ℤ` is chosen over `ℚ` to keep every
  definition kernel-computable for the concrete witnesses.
* ROOT histograms are modelled by the list of values filled into them, in
  fill order (`TH1F` as `List ℤ`, `TH2F` as `List (ℤ × ℤ)` of `(x, y)`
  fill pairs).  `FillN(n, xs, ws)` with unit weights appends `xs`; `Add`
  appends contents.  Bin-wise statements are phrased via `List.count`,
  since the bin contents of a fixed binning are determined by the filled
  values.
* Python dicts keyed by strings/ints are modelled as total functions into
  `Option` (lookup failure = `none` = KeyError) or, where the source only
  ever reads keys it created, as total functions with `[]` default.
* `awkward`/`numpy` vectorised operations are modelled element-wise; a
  jagged boolean mask whose inner lengths disagree with the masked array
  raises in awkward and is modelled as `Except.error`.
* The `npe_tot_poisson` column (line 351) is nondeterministic (Poisson
  sampling) and is not used by any cut modelled here; cut-string
  evaluation (`eval` against the event record) is abstracted by an oracle
  `String → Event → Bool` passed to the pipeline.
-/

/-- `Except.isOk` as a plain Bool, avoiding library-version differences. -/
def exIsOk {α : Type} : Except String α → Bool
  | Except.ok _ => true
  | Except.error _ => false

/-- Extract the ok-value of an `Except`, with a default for the error case. -/
def exGet {α : Type} : Except String α → α → α
  | Except.ok a, _ => a
  | Except.error _, d => d

/-- Left fold with exception propagation: a Python `for` loop whose body may
raise. -/
def efoldl {σ α : Type} (f : σ → α → Except String σ) : σ → List α → Except String σ
  | s, [] => Except.ok s
  | s, a :: l =>
    match f s a with
    | Except.error e => Except.error e
    | Except.ok s2 => efoldl f s2 l

/-- Element-wise map with exception propagation (vectorised operation that may
raise on some element). -/
def emap {α β : Type} (f : α → Except String β) : List α → Except String (List β)
  | [] => Except.ok []
  | a :: l =>
    match f a with
    | Except.error e => Except.error e
    | Except.ok b =>
      match emap f l with
      | Except.error e => Except.error e
      | Except.ok bs => Except.ok (b :: bs)

/-- Boolean masking `xs[mask]` of one inner list; awkward raises when the mask
length disagrees with the array length. -/
def maskList {α : Type} : List α → List Bool → Except String (List α)
  | [], [] => Except.ok []
  | a :: l, b :: m =>
    (match maskList l m with
     | Except.error e => Except.error e
     | Except.ok r => Except.ok (if b then a :: r else r))
  | _, _ => Except.error "ValueError: cannot broadcast nested list"

/-- Decimal digits of `n`, least significant first, with explicit fuel so that
the definition is structurally recursive and kernel-computable. -/
def digitsAux : Nat → Nat → List Nat
  | 0, _ => []
  | fuel + 1, n => if n = 0 then [] else n % 10 :: digitsAux fuel (n / 10)

/-- The decimal string `str(n)` of a natural number, as its list of digits,
most significant first (`str(0) = "0"`). -/
def decDigits (n : Nat) : List Nat :=
  if n = 0 then [0] else (digitsAux n n).reverse

/-- Python slice `s[a:b]` on a digit string (clamping, possibly empty). -/
def pySlice (l : List Nat) (a b : Nat) : List Nat := (l.drop a).take (b - a)

/-- Numeric value of a digit string (most significant first). -/
def digitsVal (ds : List Nat) : Nat := ds.foldl (fun acc d => 10 * acc + d) 0

/-- Python `int(s)` on a digit-string slice: raises ValueError on the empty
string. -/
def intOfDigits (ds : List Nat) : Except String Nat :=
  if ds.isEmpty then Except.error "ValueError: invalid literal for int with base 10"
  else Except.ok (digitsVal ds)

/-- One entry of the channel map `chmap` (legend-metadata), restricted to the
fields `build_pdf.py` reads: system kind, location (string, position), daq raw
id and detector type. -/
structure ChEntry where
  name : String
  system : String
  loc_string : Nat
  loc_position : Nat
  rawid : Nat
  dtype : String
deriving DecidableEq

/-- The channel map is an (ordered) dict `detector name → metadata`. -/
abbrev ChMap := List ChEntry

/-- The four dictionaries built by `process_mage_id`, keyed by mage id. -/
structure MageNames where
  channel : Nat → Option String
  name : Nat → Option String
  string : Nat → Option Nat
  position : Nat → Option Nat

/-- The empty `mage_names` dictionaries (line 68). -/
def mnInit : MageNames :=
  ⟨fun _ => none, fun _ => none, fun _ => none, fun _ => none⟩

/-- Record the four attributes of mage id `id` (lines 83-86). -/
def mnInsert (mn : MageNames) (id : Nat) (e : ChEntry) (s p : Nat) : MageNames :=
  { channel := fun x => if x = id then some ("ch" ++ toString e.rawid) else mn.channel x
    name := fun x => if x = id then some e.name else mn.name x
    string := fun x => if x = id then some s else mn.string x
    position := fun x => if x = id then some p else mn.position x }

/-- Loop body of `process_mage_id` (lines 69-86): decode one mage id from its
decimal string, skip non-germanium flags, then scan the channel map for a
matching (string, position) location.  `int(m_id[3:5])` on a too-short id
raises ValueError. -/
def process_one (chm : ChMap) (mn : MageNames) (id : Nat) : Except String MageNames :=
  if ((decDigits id).headD 0) = 0 then Except.ok mn
  else
    match intOfDigits (pySlice (decDigits id) 3 5) with
    | Except.error e => Except.error e
    | Except.ok s =>
      match intOfDigits (pySlice (decDigits id) 5 7) with
      | Except.error e => Except.error e
      | Except.ok p =>
        Except.ok (chm.foldl
          (fun acc e =>
            if e.system = "geds" ∧ e.loc_string = s ∧ e.loc_position = p then
              mnInsert acc id e s p
            else acc) mn)

/-- `process_mage_id` (lines 44-88): fold the per-id decoding over the input
list of raw integer mage ids. -/
def process_mage_id (chm : ChMap) (ids : List Nat) : Except String MageNames :=
  efoldl (process_one chm) mnInit ids

/-- The digit-slicing rule of the resolver in isolation (lines 71-77): leading
decimal digit as germanium flag, digits `[3:5]` as string index, digits `[5:7]`
as position index. -/
def mageDecode (id : Nat) : Except String (Bool × Nat × Nat) :=
  match intOfDigits (pySlice (decDigits id) 3 5) with
  | Except.error e => Except.error e
  | Except.ok s =>
    match intOfDigits (pySlice (decDigits id) 5 7) with
    | Except.error e => Except.error e
    | Except.ok p => Except.ok (decide (((decDigits id).headD 0) ≠ 0), s, p)

/-- The mage-id encoder of `make_tier_evt_config_file.py` (lines 139-142):
`mageid = 1000000 + cryostat*10000 + string*100 + posn` with `cryostat = 1`. -/
def mageid (cryostat string posn : Nat) : Nat :=
  1000000 + cryostat * 10000 + string * 100 + posn

/-- `re.findall(r'r\d\d\d', text)`: non-overlapping left-to-right scan. -/
def findallRun : List Char → List String
  | 'r' :: a :: b :: c :: rest =>
    if a.isDigit && b.isDigit && c.isDigit then
      String.mk ['r', a, b, c] :: findallRun rest
    else findallRun (a :: b :: c :: rest)
  | _ :: rest => findallRun rest
  | [] => []

/-- `re.findall(r'p\d\d', text)`: non-overlapping left-to-right scan. -/
def findallPeriod : List Char → List String
  | 'p' :: a :: b :: rest =>
    if a.isDigit && b.isDigit then
      String.mk ['p', a, b] :: findallPeriod rest
    else findallPeriod (a :: b :: rest)
  | _ :: rest => findallPeriod rest
  | [] => []

/-- `get_run` (lines 91-93). -/
def get_run (text : String) : List String := findallRun text.data

/-- `get_period` (lines 96-98). -/
def get_period (text : String) : List String := findallPeriod text.data

/-- Char-list prefix test (for the substring check used in statements about
error messages). -/
def prefOf : List Char → List Char → Bool
  | [], _ => true
  | _ :: _, [] => false
  | a :: as, b :: bs => a == b && prefOf as bs

/-- Char-list contiguous-substring test. -/
def infOf (n : List Char) : List Char → Bool
  | [] => n.isEmpty
  | b :: bs => prefOf n (b :: bs) || infOf n bs

/-- `needle in hay` for strings. -/
def containsSub (hay needle : String) : Bool := infOf needle.data hay.data

/-- Arithmetic on numpy boolean arrays: `True = 1`, `False = 0`. -/
def b2i (b : Bool) : Int := if b then 1 else 0

/-- Lift a total converter into the `Except`-valued converter type used by the
pipeline (a `np.vectorize`d dict lookup that happens to always succeed). -/
def okf (f : Nat → Int) : Nat → Except String Int := fun c => Except.ok (f c)

/-- Per-pair body of `get_m2_categories`: string and position lookups for the
two channels of one event, then the numpy category arithmetic
`1*is_cat_one + 2*is_cat_two + 3*is_cat_three` (lines 121-133). -/
def catPair (chStr chPos : Nat → Except String Int) (pr : Nat × Nat) :
    Except String Int :=
  match chStr pr.1 with
  | Except.error e => Except.error e
  | Except.ok s1 =>
    match chStr pr.2 with
    | Except.error e => Except.error e
    | Except.ok s2 =>
      match chPos pr.1 with
      | Except.error e => Except.error e
      | Except.ok p1 =>
        match chPos pr.2 with
        | Except.error e => Except.error e
        | Except.ok p2 =>
          let same_string := decide (s1 = s2)
          let neighbour := decide (|p1 - p2| = 1)
          Except.ok (1 * b2i (same_string && neighbour) +
                     2 * b2i (same_string && !neighbour) +
                     3 * b2i (!same_string))

/-- `get_m2_categories` (lines 102-134), applied to the list of per-event
channel pairs.  The numpy computation is element-wise; the vectorised
converters raise KeyError on unmapped channels, hence the `Except`-valued
converters. -/
def get_m2_categories (pairs : List (Nat × Nat))
    (chStr chPos : Nat → Except String Int) : Except String (List Int) :=
  emap (catPair chStr chPos) pairs

/-- The circular-minimum string distance of `get_string_row_diff`
(lines 158-160): `min((s1-s2) % 11, (-s1+s2) % 11)`, with Python's
nonnegative `%` on a positive modulus (= `Int.emod`). -/
def stringDiff (s1 s2 : Int) : Int := min ((s1 - s2) % 11) ((-s1 + s2) % 11)

/-- Per-pair circular string distance of `get_string_row_diff`
(lines 137-167, element-wise body). -/
def sdPair (chStr : Nat → Except String Int) (pr : Nat × Nat) :
    Except String Int :=
  match chStr pr.1 with
  | Except.error e => Except.error e
  | Except.ok s1 =>
    match chStr pr.2 with
    | Except.error e => Except.error e
    | Except.ok s2 => Except.ok (stringDiff s1 s2)

/-- Per-pair absolute position difference (line 165). -/
def fdPair (chPos : Nat → Except String Int) (pr : Nat × Nat) :
    Except String Int :=
  match chPos pr.1 with
  | Except.error e => Except.error e
  | Except.ok p1 =>
    match chPos pr.2 with
    | Except.error e => Except.error e
    | Except.ok p2 => Except.ok |p1 - p2|

/-- `get_string_row_diff` continued: both element-wise arrays. -/
def get_string_row_diff (pairs : List (Nat × Nat))
    (chStr chPos : Nat → Except String Int) :
    Except String (List Int × List Int) :=
  match emap (sdPair chStr) pairs with
  | Except.error e => Except.error e
  | Except.ok sd =>
    match emap (fdPair chPos) pairs with
    | Except.error e => Except.error e
    | Except.ok fd => Except.ok (sd, fd)

/-- One event of the `simTree` batch: parallel per-hit columns (awkward record
of jagged fields) plus the two multiplicity columns computed during cleaning
(lines 375-376; `0` before they are set). -/
structure Event where
  energy : List ℤ
  mage_id : List Nat
  is_off : List Bool
  is_ac : List Bool
  mul : Nat := 0
  mul_is_good : Nat := 0
deriving DecidableEq

/-- A cut specification from the configuration file. -/
structure CutSpec where
  name : String
  cut_string : String
  is_sum : Bool
  is_2d : Bool
deriving DecidableEq

/-- The parts of `rconfig` the pipeline core reads. -/
structure RConfig where
  energy_threshold : ℤ
  cuts : List CutSpec

/-- The batch-cleaning pipeline (lines 350-380).

Lines 361-364 mask `energy`, `mage_id`, `is_off`, `is_ac` each with a freshly
evaluated `energy > threshold` mask; since line 361 reassigns `energy` first,
the masks for the other three columns are evaluated against the already
filtered energies (all-true, but of the filtered length), so awkward raises a
broadcasting error whenever any hit was below threshold.  Lines 367-369 then
remove hits in off detectors (masking `energy`, `mage_id`, `is_ac` with
`~is_off`; `is_off` itself stays), line 372 removes empty events, lines
375-376 add the multiplicity columns, and line 380 removes events with any
anti-coincidence hit (`remove_ac_hits` is hardwired `True` at line 202). -/
def cleanEvents (thr : ℤ) (evs : List Event) : Except String (List Event) :=
  match emap (fun ev =>
      let e2 := ev.energy.filter (fun x => decide (thr < x))
      let m2 := e2.map (fun x => decide (thr < x))
      match maskList ev.mage_id m2 with
      | Except.error e => Except.error e
      | Except.ok mid =>
        match maskList ev.is_off m2 with
        | Except.error e => Except.error e
        | Except.ok moff =>
          match maskList ev.is_ac m2 with
          | Except.error e => Except.error e
          | Except.ok mac =>
            Except.ok { ev with energy := e2, mage_id := mid, is_off := moff, is_ac := mac }) evs with
  | Except.error e => Except.error e
  | Except.ok evs1 =>
    match emap (fun ev =>
        let keep := ev.is_off.map (fun b => !b)
        match maskList ev.energy keep with
        | Except.error e => Except.error e
        | Except.ok e2 =>
          match maskList ev.mage_id keep with
          | Except.error e => Except.error e
          | Except.ok mid =>
            match maskList ev.is_ac keep with
            | Except.error e => Except.error e
            | Except.ok mac =>
              Except.ok { ev with energy := e2, mage_id := mid, is_ac := mac }) evs1 with
    | Except.error e => Except.error e
    | Except.ok evs2 =>
      let evs3 := evs2.filter (fun ev => decide (0 < ev.energy.length))
      let evs4 := evs3.map (fun ev =>
        { ev with mul := ev.energy.length
                  mul_is_good := (ev.is_ac.filter (fun b => !b)).length })
      Except.ok (evs4.filter (fun ev => ev.is_ac.all (fun b => !b)))

/-- Cut application (lines 388-392): an empty cut string passes the whole
(copied) batch, otherwise the batch is filtered by the evaluated boolean
expression (abstracted by the oracle). -/
def applyCut (oracle : String → Event → Bool) (cs : String) (evs : List Event) : List Event :=
  if cs = "" then evs else evs.filter (oracle cs)

/-- Point update of a string-keyed histogram dictionary. -/
def update1 {α : Type} (h : String → α) (k : String) (v : α) : String → α :=
  fun k2 => if k2 = k then v else h k2

/-- One iteration of the plain-cut fill loop (lines 396-416): look up the
id's rawid (KeyError if unmapped), select and flatten this channel's energies
from the filtered batch, convert `* 1000`, skip when empty, else `FillN` into
the channel's global histogram and into the (period, run) histogram of the
cut. -/
def plainStep (cm : MageNames) (array_cut : List Event)
    (acc : (String → List ℤ) × List ℤ) (id : Nat) :
    Except String ((String → List ℤ) × List ℤ) :=
  match cm.channel id with
  | none => Except.error "KeyError: mage id not in channel dictionary"
  | some rawid =>
    match emap (fun ev =>
        maskList ev.energy (ev.mage_id.map (fun m => decide (m = id)))) array_cut with
    | Except.error e => Except.error e
    | Except.ok sel =>
      let earr := sel.flatten.map (fun x => x * 1000)
      if earr.length = 0 then Except.ok acc
      else Except.ok (update1 acc.1 rawid (acc.1 rawid ++ earr), acc.2 ++ earr)

/-- The loop over the flattened mage ids (lines 396-416). -/
def plainFill (cm : MageNames) (ids : List Nat) (array_cut : List Event)
    (hc : String → List ℤ) (rh : List ℤ) :
    Except String ((String → List ℤ) × List ℤ) :=
  efoldl (plainStep cm array_cut) (hc, rh) ids

/-- Modelled from the spec: the plain-cut fill as the specification describes
it, iterating every *distinct* raw channel identifier of the batch exactly
once ("for every distinct raw channel identifier seen in the batch ...").
Used only to compare the source behaviour against the spec's wording. -/
def plainFillDistinctSpec (cm : MageNames) (ids : List Nat) (array_cut : List Event)
    (hc : String → List ℤ) (rh : List ℤ) :
    Except String ((String → List ℤ) × List ℤ) :=
  plainFill cm ids.dedup array_cut hc rh

/-- The per-channel energy selection of the plain fill in closed form:
flatten, over the events of the filtered batch, the energies of the hits
whose mage id equals `id`, converted `* 1000`. -/
def chanEnergies (evs : List Event) (id : Nat) : List ℤ :=
  ((evs.map (fun ev =>
      ((ev.energy.zip ev.mage_id).filter (fun q => decide (q.2 = id))).map
        (fun q => q.1))).flatten).map
    (fun x => x * 1000)

/-- The summed-energy fill (lines 465-475): reduce each passing event's hit
energies to their sum, convert, skip if empty, else fill the cut's single
"all" histogram. -/
def sumFill (evs : List Event) (hs : List ℤ) : List ℤ :=
  let arr := evs.map (fun ev => ev.energy.sum * 1000)
  if arr.length = 0 then hs else hs ++ arr

/-- `ak.max(..., axis=-1)` followed by `.to_numpy()`: raises on an empty hit
list (option-typed result). -/
def listMax : List ℤ → Except String ℤ
  | [] => Except.error "ValueError: zero-size array to reduction operation"
  | x :: l => Except.ok (l.foldl max x)

/-- `ak.min(..., axis=-1)` followed by `.to_numpy()`. -/
def listMin : List ℤ → Except String ℤ
  | [] => Except.error "ValueError: zero-size array to reduction operation"
  | x :: l => Except.ok (l.foldl min x)

/-- `np.vstack(channel_array)` followed by the column extractions
`[:, 0]` / `[:, 1]` (lines 117-119 / 151-153): raises on an empty batch, on
ragged rows, and on rows shorter than two. -/
def vstack2 (rows : List (List Nat)) : Except String (List (Nat × Nat)) :=
  match rows with
  | [] => Except.error "ValueError: need at least one array to concatenate"
  | r :: rs =>
    if rs.all (fun x => decide (x.length = r.length)) then
      if 2 ≤ r.length then
        Except.ok ((r :: rs).map (fun x => (x.getD 0 0, x.getD 1 0)))
      else Except.error "IndexError: index 1 is out of bounds"
    else Except.error "ValueError: all the input array dimensions must match"

/-- `np.where(vals == target)` index selection applied simultaneously to the
two energy columns (`_energy_2_array_tmp`, `_energy_1_array_tmp`), returning
the selected `(x, y) = (e2, e1)` fill pairs. -/
def selectWhere2 (vals : List Int) (target : Int) (xs ys : List ℤ) : List (ℤ × ℤ) :=
  ((vals.zip (xs.zip ys)).filter (fun q => decide (q.1 = target))).map (fun q => q.2)

/-- Split a char list at its first underscore. -/
def splitFirstUnd : List Char → Option (List Char × List Char)
  | [] => none
  | c :: rest =>
    if c = '_' then some ([], rest)
    else
      match splitFirstUnd rest with
      | none => none
      | some (a, b) => some (c :: a, b)

/-- Parse a digit string into a natural number (`none` on empty or
non-digit input, where Python `int` would raise). -/
def charsToNatAux : Nat → List Char → Option Nat
  | acc, [] => some acc
  | acc, c :: rest =>
    if c.isDigit then charsToNatAux (acc * 10 + (c.toNat - 48)) rest else none

/-- `int` on the decimal chars after the underscore. -/
def charsToNat : List Char → Option Nat
  | [] => none
  | c :: rest => charsToNatAux 0 (c :: rest)

/-- Parse a 2-D bucket name `kind_n` (`int(name.split("_")[1])`). -/
def bucketKind (nm : String) : Option (String × Nat) :=
  match splitFirstUnd nm.data with
  | none => none
  | some (a, b) =>
    match charsToNat b with
    | some n => some (String.mk a, n)
    | none => none

/-- The 2-D bucket names (lines 294-297): `sd_0..sd_6` then
`all, cat_1, cat_2, cat_3`. -/
def names_m2 : List String :=
  ["sd_0", "sd_1", "sd_2", "sd_3", "sd_4", "sd_5", "sd_6",
   "all", "cat_1", "cat_2", "cat_3"]

/-- The per-name loop of the 2-D fill (lines 426-462).  For every non-"all"
name the categories and distance metrics are recomputed from the channel
pairs; the matching events are selected; empty selections are skipped,
others are filled as `(e2, e1)` pairs into the bucket's 2-D histogram.
A bucket name that is neither "all" nor `cat_*`/`sd_*` cannot occur in
`names_m2`; it is modelled as an empty selection. -/
def fill2dGo (cS cP : Nat → Except String Int) (rows : List (List Nat))
    (e1 e2 : List ℤ) :
    List String → (String → List (ℤ × ℤ)) → Except String (String → List (ℤ × ℤ))
  | [], h2 => Except.ok h2
  | nm :: rest, h2 =>
    match (if nm ≠ "all" then
        match vstack2 rows with
        | Except.error e => Except.error e
        | Except.ok pairs =>
          match get_m2_categories pairs cS cP with
          | Except.error e => Except.error e
          | Except.ok cats =>
            match get_string_row_diff pairs cS cP with
            | Except.error e => Except.error e
            | Except.ok sdfd =>
              match bucketKind nm with
              | some ("cat", c) => Except.ok (selectWhere2 cats (Int.ofNat c) e2 e1)
              | some ("sd", sd) => Except.ok (selectWhere2 sdfd.1 (Int.ofNat sd) e2 e1)
              | _ => Except.ok []
      else Except.ok (e2.zip e1) : Except String (List (ℤ × ℤ))) with
    | Except.error e => Except.error e
    | Except.ok tmp =>
      if tmp.length = 0 then fill2dGo cS cP rows e1 e2 rest h2
      else fill2dGo cS cP rows e1 e2 rest (update1 h2 nm (h2 nm ++ tmp))

/-- The 2-D branch of the cut loop (lines 419-462): larger/smaller converted
energies per event, channel rows, then the bucket loop over `names_m2`. -/
def fill2d (cS cP : Nat → Except String Int) (evs : List Event)
    (h2 : String → List (ℤ × ℤ)) : Except String (String → List (ℤ × ℤ)) :=
  match emap (fun ev => listMax ev.energy) evs with
  | Except.error e => Except.error e
  | Except.ok e1raw =>
    match emap (fun ev => listMin ev.energy) evs with
    | Except.error e => Except.error e
    | Except.ok e2raw =>
      fill2dGo cS cP (evs.map (fun ev => ev.mage_id))
        (e1raw.map (fun x => x * 1000)) (e2raw.map (fun x => x * 1000)) names_m2 h2

/-- The mutable histogram state of the run: `hists` (plain cuts, per rawid),
`run_hists` (per cut and `period_run` key), `sum_hists` (per summed cut,
"all" only, keyed by cut), `hists_2d` (per 2-D cut and bucket name).
Dictionaries are total functions with `[]` default (every key the code
fills was initialised empty). -/
structure HState where
  hists : String → String → List ℤ
  run_hists : String → String → List ℤ
  sum_hists : String → List ℤ
  hists_2d : String → String → List (ℤ × ℤ)

/-- All histograms start empty. -/
def initHState : HState :=
  ⟨fun _ _ => [], fun _ _ => [], fun _ => [], fun _ _ => []⟩

/-- Histogram state plus the running primaries counter. -/
structure RunState where
  hstate : HState
  n_primaries : Nat

/-- The body of the cut loop (lines 383-475): apply the cut string and
dispatch on (`is_sum`, `is_2d`) exactly as the `if/elif/else` at lines 395,
419, 465. `pr` is the `f"{period}_{run}"` key of the run histograms. -/
def cutStep (oracle : String → Event → Bool) (pr : String)
    (cm : MageNames) (mage_ids : List Nat) (cleaned : List Event)
    (st : HState) (cut : CutSpec) : Except String HState :=
  if cut.is_sum = false ∧ cut.is_2d = false then
    match plainFill cm mage_ids (applyCut oracle cut.cut_string cleaned)
        (st.hists cut.name) (st.run_hists cut.name pr) with
    | Except.error e => Except.error e
    | Except.ok pair =>
      Except.ok { st with
        hists := fun c k => if c = cut.name then pair.1 k else st.hists c k
        run_hists := fun c k =>
          if c = cut.name ∧ k = pr then pair.2 else st.run_hists c k }
  else if cut.is_2d = true then
    match fill2d (fun c => (cm.string c).elim
            (Except.error "KeyError: mage id not in string dictionary")
            (fun v => Except.ok (Int.ofNat v)))
          (fun c => (cm.position c).elim
            (Except.error "KeyError: mage id not in position dictionary")
            (fun v => Except.ok (Int.ofNat v)))
          (applyCut oracle cut.cut_string cleaned) (st.hists_2d cut.name) with
    | Except.error e => Except.error e
    | Except.ok h2 =>
      Except.ok { st with
        hists_2d := fun c k => if c = cut.name then h2 k else st.hists_2d c k }
  else
    Except.ok { st with
      sum_hists := fun c =>
        if c = cut.name then sumFill (applyCut oracle cut.cut_string cleaned) (st.sum_hists c)
        else st.sum_hists c }

/-- Processing of one iterated batch continued: channel dictionaries from
the flattened raw per-hit ids, cleaning, then the cut loop. -/
def processBatch (cfg : RConfig) (oracle : String → Event → Bool) (chm : ChMap)
    (pr : String) (st : HState) (evs : List Event) : Except String HState :=
  match process_mage_id chm ((evs.map (fun ev => ev.mage_id)).flatten) with
  | Except.error e => Except.error e
  | Except.ok cm =>
    match cleanEvents cfg.energy_threshold evs with
    | Except.error e => Except.error e
    | Except.ok cleaned =>
      efoldl (cutStep oracle pr cm ((evs.map (fun ev => ev.mage_id)).flatten) cleaned)
        st cfg.cuts

/-- One input file of the run: its name (for the period/run parse), the
`simTree` entry count, the first entry of the `mage_n_events` branch, and the
iterated batches. -/
structure InputFile where
  name : String
  num_entries : Nat
  mage_n_events : Nat
  batches : List (List Event)

/-- The basename `file_name.split("/")[-1]` of line 328. -/
def fileEnd (nm : String) : String :=
  String.mk ((nm.data.reverse.takeWhile (fun c => c ≠ '/')).reverse)

/-- The period/run key `f"{period}_{run}"` computation of lines 327-338:
`run[0]` on an empty findall result raises IndexError. -/
def periodRunKey (nm : String) : Except String String :=
  if 0 < (get_period (fileEnd nm)).length then
    match get_run (fileEnd nm) with
    | [] => Except.error "IndexError: list index out of range"
    | r :: _ => Except.ok ((get_period (fileEnd nm)).headD "" ++ "_" ++ r)
  else Except.ok "p03_r000"

/-- Processing of one input file continued: the zero-events abort (lines
341-344), the primaries accumulation (line 346) and the batch loop. -/
def processFile (cfg : RConfig) (oracle : String → Event → Bool) (chm : ChMap)
    (st : RunState) (f : InputFile) : Except String RunState :=
  match periodRunKey f.name with
  | Except.error e => Except.error e
  | Except.ok pr =>
    if f.num_entries = 0 then
      Except.error ("ERROR: MPP evt file " ++ f.name ++ " has 0 events in simTree")
    else
      match efoldl (fun h b => processBatch cfg oracle chm pr h b) st.hstate f.batches with
      | Except.error e => Except.error e
      | Except.ok hst => Except.ok ⟨hst, st.n_primaries + f.mage_n_events⟩

/-- `geds_mapping` (lines 223-227): dict `f"ch{rawid}" → detector name` over
the germanium entries of the channel map, as an association list (raw ids are
assumed distinct in the channel map, so the dict comprehension neither drops
nor overwrites entries). -/
def geds_mapping (chm : ChMap) : List (String × String) :=
  chm.filterMap (fun e =>
    if e.system = "geds" then some ("ch" ++ toString e.rawid, e.name) else none)

/-- `chmap[name]["type"]` (line 498). -/
def dtypeOf (chm : ChMap) (nm : String) : String :=
  match chm.find? (fun e => decide (e.name = nm)) with
  | some e => e.dtype
  | none => ""

/-- The detector-type grouping labels (line 489). -/
def detTypes : List String := ["bege", "coax", "icpc", "ppc"]

/-- One iteration of the grouping loop over the germanium channels (lines
497-501): `Add` the channel's histogram into its detector type's histogram
(first) and into "all" (second). -/
def gcTypeAdd (chm : ChMap) (cut : String) (acc : String → String → List ℤ)
    (p : String × String) : String → String → List ℤ :=
  fun c2 k2 =>
    if c2 = cut ∧ k2 = dtypeOf chm p.2 then acc c2 (dtypeOf chm p.2) ++ acc c2 p.1
    else acc c2 k2

/-- One iteration of the grouping loop continued: the second `Add`, into
"all", reads the state left by the type `Add`. -/
def gcAdd (chm : ChMap) (cut : String) (acc : String → String → List ℤ)
    (p : String × String) : String → String → List ℤ :=
  fun c k =>
    if c = cut ∧ k = "all" then
      gcTypeAdd chm cut acc p c "all" ++ gcTypeAdd chm cut acc p c p.1
    else gcTypeAdd chm cut acc p c k

/-- The grouped-histogram construction for one plain cut continued: fresh
empty "all" and per-type histograms, then the `Add` loop over the germanium
channels. -/
def groupCut (chm : ChMap) (cut : String) (h : String → String → List ℤ) :
    String → String → List ℤ :=
  (geds_mapping chm).foldl (gcAdd chm cut)
    (detTypes.foldl
      (fun acc t => fun c k => if c = cut ∧ k = t then ([] : List ℤ) else acc c k)
      (fun c k => if c = cut ∧ k = "all" then ([] : List ℤ) else h c k))

/-- The names of the plain cuts, i.e. the keys of `hists` (lines 255-269). -/
def plainCutNames (cfg : RConfig) : List String :=
  (cfg.cuts.filter (fun c => !c.is_sum && !c.is_2d)).map (fun c => c.name)

/-- The grouping loop `for _cut_name in hists` (line 481). -/
def makeGrouped (chm : ChMap) (cuts : List String)
    (h : String → String → List ℤ) : String → String → List ℤ :=
  cuts.foldl (fun acc c => groupCut chm c acc) h

/-- The persisted output container: the per-cut histogram groups and the
string-encoded primaries count (lines 504-528). -/
structure Output where
  hists : String → String → List ℤ
  run_hists : String → String → List ℤ
  sum_hists : String → List ℤ
  hists_2d : String → String → List (ℤ × ℤ)
  number_of_primaries : String

/-- Default output value (used only as the `exGet` fallback in statements). -/
def outDflt : Output :=
  ⟨fun _ _ => [], fun _ _ => [], fun _ => [], fun _ _ => [], ""⟩

/-- The whole `build_pdf` run: primaries from the raw files (first-entry
`fNEvents` of each, lines 244-247), the per-file loop, the grouping step
(run exactly once, after all files), and the output container with
`str(int(n_primaries_total))` (line 527).  `raw_n` lists the first-entry
primaries count of each `--raw-files` argument. -/
def build_pdf (cfg : RConfig) (oracle : String → Event → Bool) (chm : ChMap)
    (raw_n : List Nat) (files : List InputFile) : Except String Output :=
  match efoldl (processFile cfg oracle chm)
      ⟨initHState, raw_n.foldl (fun a b => a + b) 0⟩ files with
  | Except.error e => Except.error e
  | Except.ok st =>
    Except.ok ⟨makeGrouped chm (plainCutNames cfg) st.hstate.hists,
               st.hstate.run_hists, st.hstate.sum_hists, st.hstate.hists_2d,
               toString st.n_primaries⟩

/-- Decoded string index of a mage id (value of `m_id[3:5]`, 0 on a slice that
would raise). -/
def mageStringD (id : Nat) : Nat := digitsVal (pySlice (decDigits id) 3 5)

/-- Decoded position index of a mage id (value of `m_id[5:7]`). -/
def magePosD (id : Nat) : Nat := digitsVal (pySlice (decDigits id) 5 7)

/-- The mage id has a matching germanium location entry in the channel map. -/
abbrev hasLocMatch (chm : ChMap) (id : Nat) : Prop :=
  ∃ e ∈ chm, e.system = "geds" ∧ e.loc_string = mageStringD id ∧
    e.loc_position = magePosD id

/-! Concrete instances used by witnesses and counterexamples. -/

/-- A two-detector channel map: strings/positions (1,1) and (1,2). -/
def chmW : ChMap :=
  [⟨"V01", "geds", 1, 1, 1, "icpc"⟩, ⟨"V02", "geds", 1, 2, 2, "bege"⟩]

/-- A configuration with one plain cut with an empty cut string. -/
def cfgW : RConfig := ⟨0, [⟨"cut1", "", false, false⟩]⟩

/-- A cut oracle that selects every event. -/
def orW : String → Event → Bool := fun _ _ => true

/-- A single-hit event on channel (1,1). -/
def evW : Event := { energy := [2], mage_id := [1010101], is_off := [false], is_ac := [false] }

/-- One input file with one batch of one event. -/
def fW : InputFile := ⟨"l200-p03-r000-f", 1, 7, [[evW]]⟩

/-- The plain-cut pipeline run used by witnesses. -/
def resW : Except String Output := build_pdf cfgW orW chmW [] [fW]

/-- A configuration with one 2-D cut with an empty cut string. -/
def cfg2W : RConfig := ⟨0, [⟨"m2", "", false, true⟩]⟩

/-- A two-hit event on channels (1,1) and (1,2). -/
def ev2W : Event :=
  { energy := [2, 3], mage_id := [1010101, 1010102],
    is_off := [false, false], is_ac := [false, false] }

/-- One input file with one two-hit event. -/
def f2W : InputFile := ⟨"l200-p03-r000-f", 1, 5, [[ev2W]]⟩

/-- The 2-D pipeline run used by witnesses. -/
def res2W : Except String Output := build_pdf cfg2W orW chmW [] [f2W]

/-- A channel dictionary resolving only id 1010101 (to rawid label "ch1"). -/
def cm1x : MageNames :=
  { channel := fun id => if id = 1010101 then some "ch1" else none
    name := fun _ => none
    string := fun _ => none
    position := fun _ => none }

/-- Two one-hit events on the same channel: the flattened per-hit id list of
this batch is `[1010101, 1010101]`. -/
def evs1x : List Event :=
  [{ energy := [5], mage_id := [1010101], is_off := [false], is_ac := [false] },
   { energy := [7], mage_id := [1010101], is_off := [false], is_ac := [false] }]

/-- Default value for reading `plainFill` results. -/
def pfDflt : (String → List ℤ) × List ℤ := (fun _ => [], [])

/-- Two input files reporting 1000 and 1500 primaries. -/
def f6a : InputFile := ⟨"a-p03-r000", 1, 1000, [[evW]]⟩

/-- Second primaries file. -/
def f6b : InputFile := ⟨"b-p03-r000", 1, 1500, [[evW]]⟩

/-- The primaries pipeline run (no raw files). -/
def res6W : Except String Output := build_pdf cfgW orW chmW [] [f6a, f6b]

/-- A zero-event input file whose basename contains a `pNN` token but no
`rNNN` token. -/
def fX7 : InputFile := ⟨"p03x", 0, 0, []⟩

/-- A zero-event input file with a well-formed basename. -/
def fW7 : InputFile := ⟨"dir/l200-p04-r001-f", 0, 3, []⟩

/-- A configuration with one 2-D cut whose cut string selects nothing under
`orF`. -/
def cfg8 : RConfig := ⟨0, [⟨"m2", "nosel", false, true⟩]⟩

/-- A cut oracle that rejects every event. -/
def orF : String → Event → Bool := fun _ _ => false

/-- A batch whose only event has no hit on channel 1010101. -/
def evs8w : List Event :=
  [{ energy := [2], mage_id := [1010102], is_off := [false], is_ac := [false] }]

/-- Total converters used in the C3 witness. -/
def fC3 : Nat → Int := fun c => Int.ofNat c

/-- Second total converter used in the C3 witness. -/
def gC3 : Nat → Int := fun c => Int.ofNat (2 * c)

/-! Helper lemmas. -/

theorem emap_ok_map {α β : Type} (f : α → Except String β) (g : α → β) :
    ∀ l : List α, (∀ a ∈ l, f a = Except.ok (g a)) →
      emap f l = Except.ok (l.map g) := by
  intro l
  induction l with
  | nil => intro _; rfl
  | cons a l ih =>
    intro h
    have ha := h a (List.mem_cons_self a l)
    have hl := ih (fun x hx => h x (List.mem_cons_of_mem a hx))
    simp only [emap, ha, hl, List.map_cons]

theorem b2i_cat_eq (s1 s2 p1 p2 : Int) :
    1 * b2i (decide (s1 = s2) && decide (|p1 - p2| = 1)) +
      2 * b2i (decide (s1 = s2) && !decide (|p1 - p2| = 1)) +
      3 * b2i (!decide (s1 = s2)) =
    if s1 = s2 ∧ |p1 - p2| = 1 then 1 else if s1 = s2 then 2 else 3 := by
  by_cases h1 : s1 = s2 <;> by_cases h2 : |p1 - p2| = 1 <;>
    simp [h1, h2, b2i]

theorem get_m2_categories_okf (pairs : List (Nat × Nat)) (f g : Nat → Int) :
    get_m2_categories pairs (okf f) (okf g) =
      Except.ok (pairs.map (fun pr =>
        if f pr.1 = f pr.2 ∧ |g pr.1 - g pr.2| = 1 then (1 : Int)
        else if f pr.1 = f pr.2 then 2 else 3)) := by
  unfold get_m2_categories
  rw [emap_ok_map (catPair (okf f) (okf g))
        (fun pr => if f pr.1 = f pr.2 ∧ |g pr.1 - g pr.2| = 1 then (1 : Int)
          else if f pr.1 = f pr.2 then 2 else 3) pairs]
  intro pr _
  show Except.ok _ = _
  rw [b2i_cat_eq]

/-- C3: for every event pair the categorizer returns 1 on same string and
adjacent positions, 2 on same string non-adjacent, 3 on different strings;
the output is one integer per event with values in 1..3, and it is invariant
under swapping the two channels of every pair. -/
theorem c3_m2_category_rule :
    ∀ (pairs : List (Nat × Nat)) (f g : Nat → Int),
      get_m2_categories pairs (okf f) (okf g) =
        Except.ok (pairs.map (fun pr =>
          if f pr.1 = f pr.2 ∧ |g pr.1 - g pr.2| = 1 then (1 : Int)
          else if f pr.1 = f pr.2 then 2 else 3)) ∧
      (exGet (get_m2_categories pairs (okf f) (okf g)) []).length = pairs.length ∧
      (∀ c ∈ exGet (get_m2_categories pairs (okf f) (okf g)) [], c = 1 ∨ c = 2 ∨ c = 3) ∧
      get_m2_categories (pairs.map Prod.swap) (okf f) (okf g) =
        get_m2_categories pairs (okf f) (okf g) := by
  intro pairs f g
  have h := get_m2_categories_okf pairs f g
  refine ⟨h, ?_, ?_, ?_⟩
  · rw [h]; simp [exGet]
  · rw [h]
    simp only [exGet, List.mem_map]
    rintro c ⟨pr, _, rfl⟩
    by_cases h1 : f pr.1 = f pr.2 ∧ |g pr.1 - g pr.2| = 1
    · left; simp [h1]
    · by_cases h2 : f pr.1 = f pr.2
      · right; left; simp [h1, h2]; exact fun hh => h1 ⟨h2, hh⟩
      · right; right; simp [h1, h2]
  · rw [h, get_m2_categories_okf]
    congr 1
    rw [List.map_map]
    apply List.map_congr_left
    intro pr _
    simp only [Function.comp, Prod.swap]
    have habs : |g pr.2 - g pr.1| = |g pr.1 - g pr.2| := abs_sub_comm _ _
    have heq : (f pr.2 = f pr.1) ↔ (f pr.1 = f pr.2) := eq_comm
    simp only [habs, heq]

/-- C3 witness: concrete instance of the category rule. -/
theorem c3_m2_category_rule_witness :
    get_m2_categories [(1, 2)] (okf fC3) (okf gC3) = Except.ok [3] := by
  have h := (c3_m2_category_rule [(1, 2)] fC3 gC3).1
  rw [h]
  rfl

/-- C4: the circular string distance is symmetric, and `get_string_row_diff`
returns the parallel arrays of `stringDiff` values and absolute position
differences. -/
theorem c4_string_diff_symm :
    (∀ s1 s2 : Int, stringDiff s1 s2 = stringDiff s2 s1) ∧
    (∀ (pairs : List (Nat × Nat)) (f g : Nat → Int),
      get_string_row_diff pairs (okf f) (okf g) =
        Except.ok (pairs.map (fun pr => stringDiff (f pr.1) (f pr.2)),
                   pairs.map (fun pr => |g pr.1 - g pr.2|))) := by
  constructor
  · intro s1 s2
    have h1 : -s1 + s2 = s2 - s1 := by ring
    have h2 : -s2 + s1 = s1 - s2 := by ring
    rw [stringDiff, stringDiff, h1, h2, min_comm]
  · intro pairs f g
    unfold get_string_row_diff
    rw [emap_ok_map (sdPair (okf f)) (fun pr => stringDiff (f pr.1) (f pr.2))
          pairs (fun pr _ => rfl)]
    rw [emap_ok_map (fdPair (okf g)) (fun pr => |g pr.1 - g pr.2|)
          pairs (fun pr _ => rfl)]

/-- C4 witness: concrete instance of the distance rule. -/
theorem c4_string_diff_symm_witness :
    stringDiff 3 9 = stringDiff 9 3 := (c4_string_diff_symm).1 3 9

instance {ε α : Type} [DecidableEq ε] [DecidableEq α] : DecidableEq (Except ε α) := fun a b =>
  match a, b with
  | Except.ok x, Except.ok y =>
    if h : x = y then isTrue (by rw [h])
    else isFalse (fun hh => h (Except.ok.inj hh))
  | Except.error x, Except.error y =>
    if h : x = y then isTrue (by rw [h])
    else isFalse (fun hh => h (Except.error.inj hh))
  | Except.ok _, Except.error _ => isFalse (fun hh => Except.noConfusion hh)
  | Except.error _, Except.ok _ => isFalse (fun hh => Except.noConfusion hh)

theorem digitsAux_eq_digits : ∀ (fuel n : Nat), n ≤ fuel → digitsAux fuel n = Nat.digits 10 n := by
  intro fuel
  induction fuel with
  | zero =>
    intro n hn
    have : n = 0 := Nat.le_zero.mp hn
    subst this
    simp [digitsAux]
  | succ f ih =>
    intro n hn
    by_cases h : n = 0
    · subst h; simp [digitsAux]
    · have hpos : 0 < n := Nat.pos_of_ne_zero h
      have hdiv : n / 10 ≤ f := by
        have := Nat.div_lt_self hpos (by norm_num : 1 < 10)
        omega
      show (if n = 0 then [] else n % 10 :: digitsAux f (n / 10)) = _
      rw [if_neg h, ih (n / 10) hdiv, Nat.digits_def' (by norm_num : 1 < 10) hpos]

theorem digits_mageid (s p : Nat) (hs : s < 100) (hp : p < 100) :
    Nat.digits 10 (1010000 + 100 * s + p) =
      [p % 10, p / 10, s % 10, s / 10, 1, 0, 1] := by
  have h10 : (1:ℕ) < 10 := by norm_num
  rw [Nat.digits_def' h10 (by omega)]
  have h1 : (1010000 + 100 * s + p) % 10 = p % 10 := by omega
  have h2 : (1010000 + 100 * s + p) / 10 = 101000 + 10 * s + p / 10 := by omega
  rw [h1, h2, Nat.digits_def' h10 (by omega)]
  have h3 : (101000 + 10 * s + p / 10) % 10 = p / 10 := by omega
  have h4 : (101000 + 10 * s + p / 10) / 10 = 10100 + s := by omega
  rw [h3, h4, Nat.digits_def' h10 (by omega)]
  have h5 : (10100 + s) % 10 = s % 10 := by omega
  have h6 : (10100 + s) / 10 = 1010 + s / 10 := by omega
  rw [h5, h6, Nat.digits_def' h10 (by omega)]
  have h7 : (1010 + s / 10) % 10 = s / 10 := by omega
  have h8 : (1010 + s / 10) / 10 = 101 := by omega
  rw [h7, h8]
  have h9 : Nat.digits 10 101 = [1, 0, 1] := by
    have e1 : (101:ℕ) % 10 = 1 := by norm_num
    have e2 : (101:ℕ) / 10 = 10 := by norm_num
    have e3 : (10:ℕ) % 10 = 0 := by norm_num
    have e4 : (10:ℕ) / 10 = 1 := by norm_num
    have e5 : (1:ℕ) % 10 = 1 := by norm_num
    have e6 : (1:ℕ) / 10 = 0 := by norm_num
    rw [Nat.digits_def' h10 (by norm_num), e1, e2,
        Nat.digits_def' h10 (by norm_num), e3, e4,
        Nat.digits_def' h10 (by norm_num), e5, e6, Nat.digits_zero]
  rw [h9]

/-- C9: the encoder of `make_tier_evt_config_file.py` and the digit-slicing
decoder of `build_pdf.py` round-trip: for all string and position indices of
at most two digits, decoding `1000000 + 1*10000 + s*100 + p` yields a set
germanium flag, string `s` and position `p`. -/
theorem c9_mageid_roundtrip (s : Nat) (hs : s < 100) (p : Nat) (hp : p < 100) :
    mageDecode (mageid 1 s p) = Except.ok (true, s, p) := by
  have hd : decDigits (mageid 1 s p) = [1, 0, 1, s / 10, s % 10, p / 10, p % 10] := by
    have hne : mageid 1 s p ≠ 0 := by unfold mageid; omega
    have hm : mageid 1 s p = 1010000 + 100 * s + p := by unfold mageid; ring
    unfold decDigits
    rw [if_neg hne, digitsAux_eq_digits _ _ (le_refl _), hm, digits_mageid s p hs hp]
    rfl
  unfold mageDecode
  rw [hd]
  have hslice1 : intOfDigits (pySlice [1, 0, 1, s / 10, s % 10, p / 10, p % 10] 3 5) =
      Except.ok (10 * (10 * 0 + s / 10) + s % 10) := rfl
  have hslice2 : intOfDigits (pySlice [1, 0, 1, s / 10, s % 10, p / 10, p % 10] 5 7) =
      Except.ok (10 * (10 * 0 + p / 10) + p % 10) := rfl
  rw [hslice1, hslice2]
  have hv1 : 10 * (10 * 0 + s / 10) + s % 10 = s := by omega
  have hv2 : 10 * (10 * 0 + p / 10) + p % 10 = p := by omega
  rw [hv1, hv2]
  rfl

/-- C9 witness: the round-trip at string 42, position 7. -/
theorem c9_mageid_roundtrip_witness :
    (42 < 100 ∧ 7 < 100) ∧ mageDecode (mageid 1 42 7) = Except.ok (true, 42, 7) :=
  ⟨⟨by decide, by decide⟩, c9_mageid_roundtrip 42 (by decide) 7 (by decide)⟩

/-- C1 counterexample: a batch with two hits on the same channel.  The fill
loop iterates the *flattened* per-hit id list `[1010101, 1010101]`, so the
channel's filtered energies `[5000, 7000]` are added twice — the claimed
"exactly once per distinct channel" behaviour (second conjunct, the
spec-modelled variant) would give `[5000, 7000]`. -/
theorem c1_duplicate_fill_counterexample :
    (exGet (plainFill cm1x [1010101, 1010101] evs1x (fun _ => []) []) pfDflt).1 "ch1"
        = [5000, 7000, 5000, 7000] ∧
    (exGet (plainFillDistinctSpec cm1x [1010101, 1010101] evs1x (fun _ => []) []) pfDflt).1 "ch1"
        = [5000, 7000] ∧
    ([5000, 7000, 5000, 7000] : List ℤ) ≠ [5000, 7000] := by
  refine ⟨by decide, by decide, by decide⟩

/-- C5 counterexample: the flag-set identifier 10 (leading digit 1) has no
matching location entry in the empty channel map, yet the resolver raises
(`int("")` on the string slice) instead of silently skipping it. -/
theorem c5_short_id_error_counterexample :
    exIsOk (process_mage_id [] [10]) = false ∧
    (decDigits 10).headD 0 ≠ 0 ∧
    ¬ hasLocMatch [] 10 := by
  refine ⟨by decide, by decide, by decide⟩

/-- C7 counterexample: a zero-event file whose basename contains a `pNN`
token but no `rNNN` token aborts with `run[0]`'s IndexError (raised before
the zero-events check), a diagnostic that does not name the file. -/
theorem c7_zero_events_message_counterexample :
    processFile cfgW orW chmW ⟨initHState, 0⟩ fX7 =
      Except.error "IndexError: list index out of range" ∧
    fX7.num_entries = 0 ∧
    containsSub "IndexError: list index out of range" fX7.name = false := by
  refine ⟨rfl, rfl, by decide⟩

/-- C8 counterexample: for a 2-D cut whose filter selects zero events, the
fill is not silently skipped: `np.vstack` of an empty channel list raises.
The second conjunct shows the filtered batch really is empty. -/
theorem c8_empty_2d_batch_counterexample :
    processBatch cfg8 orF chmW "p03_r000" initHState [ev2W] =
      Except.error "ValueError: need at least one array to concatenate" ∧
    applyCut orF "nosel" (exGet (cleanEvents 0 [ev2W]) []) = [] := by
  refine ⟨rfl, by decide⟩

theorem efoldl_ok_preserve {σ α : Type} (f : σ → α → Except String σ) (P : σ → Prop)
    (hstep : ∀ s a s2, f s a = Except.ok s2 → P s → P s2) :
    ∀ (l : List α) (s s2 : σ), efoldl f s l = Except.ok s2 → P s → P s2 := by
  intro l
  induction l with
  | nil =>
    intro s s2 h hp
    simp only [efoldl] at h
    cases h
    exact hp
  | cons a l ih =>
    intro s s2 h hp
    simp only [efoldl] at h
    cases hfa : f s a with
    | error e => rw [hfa] at h; cases h
    | ok s1 =>
      rw [hfa] at h
      exact ih s1 s2 h (hstep s a s1 hfa hp)

theorem efoldl_err {σ α : Type} (f : σ → α → Except String σ) (a : α)
    (hbad : ∀ s, exIsOk (f s a) = false) :
    ∀ (l : List α), a ∈ l → ∀ s, exIsOk (efoldl f s l) = false := by
  intro l
  induction l with
  | nil => intro h; cases h
  | cons b l ih =>
    intro hmem s
    simp only [efoldl]
    cases hfb : f s b with
    | error e => rfl
    | ok s1 =>
      rcases List.mem_cons.mp hmem with hba | hal
      · subst hba
        have := hbad s
        rw [hfb] at this
        cases this
      · exact ih hal s1

theorem efoldl_proj_add {σ α : Type} (f : σ → α → Except String σ)
    (proj : σ → Nat) (g : α → Nat)
    (hstep : ∀ s a s2, f s a = Except.ok s2 → proj s2 = proj s + g a) :
    ∀ (l : List α) (s s2 : σ), efoldl f s l = Except.ok s2 →
      proj s2 = proj s + (l.map g).sum := by
  intro l
  induction l with
  | nil =>
    intro s s2 h
    simp only [efoldl] at h
    cases h
    simp
  | cons a l ih =>
    intro s s2 h
    simp only [efoldl] at h
    cases hfa : f s a with
    | error e => rw [hfa] at h; cases h
    | ok s1 =>
      rw [hfa] at h
      have h1 := ih s1 s2 h
      have h2 := hstep s a s1 hfa
      rw [h1, h2]
      simp [Nat.add_assoc]

theorem maskList_filter {f : Nat → Bool} :
    ∀ (es : List ℤ) (ms : List Nat), es.length = ms.length →
      maskList es (ms.map f) =
        Except.ok (((es.zip ms).filter (fun q => f q.2)).map (fun q => q.1)) := by
  intro es
  induction es with
  | nil =>
    intro ms h
    cases ms with
    | nil => rfl
    | cons m ms => simp at h
  | cons e es ih =>
    intro ms h
    cases ms with
    | nil => simp at h
    | cons m ms =>
      have h2 : es.length = ms.length := by simpa using h
      simp only [List.map_cons, maskList]
      rw [ih ms h2]
      by_cases hf : f m
      · simp [hf, List.filter_cons]
      · simp [hf, List.filter_cons]

theorem plainSelect_ok (evs : List Event) (id : Nat)
    (hwf : ∀ ev ∈ evs, ev.energy.length = ev.mage_id.length) :
    emap (fun ev => maskList ev.energy (ev.mage_id.map (fun m => decide (m = id)))) evs =
      Except.ok (evs.map (fun ev =>
        ((ev.energy.zip ev.mage_id).filter (fun q => decide (q.2 = id))).map (fun q => q.1))) := by
  apply emap_ok_map
  intro ev hev
  exact maskList_filter ev.energy ev.mage_id (hwf ev hev)

theorem plainFill_char (cm : MageNames) (evs : List Event)
    (hwf : ∀ ev ∈ evs, ev.energy.length = ev.mage_id.length) :
    ∀ (ids : List Nat) (hc : String → List ℤ) (rh : List ℤ),
      (∀ id ∈ ids, (cm.channel id).isSome = true) →
      ∃ res, plainFill cm ids evs hc rh = Except.ok res ∧
        (∀ k, res.1 k = hc k ++
          ((ids.filter (fun id => decide (cm.channel id = some k))).map
            (chanEnergies evs)).flatten) ∧
        res.2 = rh ++ (ids.map (chanEnergies evs)).flatten := by
  intro ids
  induction ids with
  | nil =>
    intro hc rh _
    refine ⟨(hc, rh), rfl, fun k => ?_, ?_⟩
    · simp
    · simp
  | cons id ids ih =>
    intro hc rh hres
    obtain ⟨r, hr⟩ := Option.isSome_iff_exists.mp (hres id (List.mem_cons_self id ids))
    have hsel := plainSelect_ok evs id hwf
    have hstep : plainStep cm evs (hc, rh) id =
        (if (chanEnergies evs id).length = 0 then Except.ok (hc, rh)
         else Except.ok (update1 hc r (hc r ++ chanEnergies evs id),
           rh ++ chanEnergies evs id)) := by
      unfold plainStep
      rw [hr, hsel]
      rfl
    by_cases hlen : (chanEnergies evs id).length = 0
    · have hnil : chanEnergies evs id = [] := List.length_eq_zero.mp hlen
      have hrw : plainFill cm (id :: ids) evs hc rh = plainFill cm ids evs hc rh := by
        simp only [plainFill, efoldl, hstep]
        rw [if_pos hlen]
      rw [hrw]
      obtain ⟨res, hok, hkk, hrr⟩ :=
        ih hc rh (fun x hx => hres x (List.mem_cons_of_mem id hx))
      refine ⟨res, hok, fun k => ?_, ?_⟩
      · rw [hkk k]
        by_cases hkr : cm.channel id = some k
        · rw [List.filter_cons, if_pos (by simpa using hkr)]
          simp [hnil]
        · rw [List.filter_cons, if_neg (by simpa using hkr)]
      · rw [hrr]
        simp [hnil]
    · have hrw : plainFill cm (id :: ids) evs hc rh =
          plainFill cm ids evs (update1 hc r (hc r ++ chanEnergies evs id))
            (rh ++ chanEnergies evs id) := by
        simp only [plainFill, efoldl, hstep]
        rw [if_neg hlen]
      rw [hrw]
      obtain ⟨res, hok, hkk, hrr⟩ :=
        ih (update1 hc r (hc r ++ chanEnergies evs id)) (rh ++ chanEnergies evs id)
          (fun x hx => hres x (List.mem_cons_of_mem id hx))
      refine ⟨res, hok, fun k => ?_, ?_⟩
      · rw [hkk k]
        by_cases hkr : k = r
        · subst hkr
          rw [List.filter_cons, if_pos (by simpa using hr)]
          simp [update1, List.append_assoc]
        · have hne : ¬ (cm.channel id = some k) := by
            rw [hr]; intro hh; exact hkr (Option.some.inj hh).symm
          rw [List.filter_cons, if_neg (by simpa using hne)]
          simp [update1, hkr]
      · rw [hrr]
        simp [List.append_assoc]

/-- C1 (amended): for a plain cut, the fill loop adds each raw channel
identifier's filtered per-hit energies (converted `* 1000`) to that channel's
global histogram and to the (period, run) histogram once per *occurrence* of
the identifier in the batch's flattened per-hit `mage_ids` list — a channel
whose identifier occurs k times has its energy list added k times, not
exactly once.  Hypotheses: parallel per-hit columns are well formed and every
id in the list resolves (otherwise the loop raises KeyError). -/
theorem c1_plain_fill_once_per_occurrence
    (cm : MageNames) (evs : List Event) (ids : List Nat)
    (hc : String → List ℤ) (rh : List ℤ)
    (hwf : ∀ ev ∈ evs, ev.energy.length = ev.mage_id.length)
    (hres : ∀ id ∈ ids, (cm.channel id).isSome = true) :
    exIsOk (plainFill cm ids evs hc rh) = true ∧
    (∀ k, (exGet (plainFill cm ids evs hc rh) pfDflt).1 k = hc k ++
        ((ids.filter (fun id => decide (cm.channel id = some k))).map
          (chanEnergies evs)).flatten) ∧
    (exGet (plainFill cm ids evs hc rh) pfDflt).2 =
      rh ++ (ids.map (chanEnergies evs)).flatten := by
  obtain ⟨res, hok, hkk, hrr⟩ := plainFill_char cm evs hwf ids hc rh hres
  rw [hok]
  exact ⟨rfl, hkk, hrr⟩

/-- C1 witness: the duplicate-id batch, evaluated through the amended
characterization. -/
theorem c1_plain_fill_once_per_occurrence_witness :
    exIsOk (plainFill cm1x [1010101, 1010101] evs1x (fun _ => []) []) = true ∧
    (exGet (plainFill cm1x [1010101, 1010101] evs1x (fun _ => []) []) pfDflt).1 "ch1" =
      (fun _ => ([] : List ℤ)) "ch1" ++
        (([1010101, 1010101].filter
            (fun id => decide (cm1x.channel id = some "ch1"))).map
          (chanEnergies evs1x)).flatten :=
  ⟨(c1_plain_fill_once_per_occurrence cm1x evs1x [1010101, 1010101] (fun _ => []) []
      (by decide) (by decide)).1,
   (c1_plain_fill_once_per_occurrence cm1x evs1x [1010101, 1010101] (fun _ => []) []
      (by decide) (by decide)).2.1 "ch1"⟩

theorem chfold_other (chm : ChMap) (id s p : Nat) :
    ∀ (mn : MageNames) (x : Nat), x ≠ id →
      (chm.foldl (fun acc e =>
          if e.system = "geds" ∧ e.loc_string = s ∧ e.loc_position = p then
            mnInsert acc id e s p else acc) mn).channel x = mn.channel x ∧
      (chm.foldl (fun acc e =>
          if e.system = "geds" ∧ e.loc_string = s ∧ e.loc_position = p then
            mnInsert acc id e s p else acc) mn).name x = mn.name x ∧
      (chm.foldl (fun acc e =>
          if e.system = "geds" ∧ e.loc_string = s ∧ e.loc_position = p then
            mnInsert acc id e s p else acc) mn).string x = mn.string x ∧
      (chm.foldl (fun acc e =>
          if e.system = "geds" ∧ e.loc_string = s ∧ e.loc_position = p then
            mnInsert acc id e s p else acc) mn).position x = mn.position x := by
  induction chm with
  | nil => intro mn x _; exact ⟨rfl, rfl, rfl, rfl⟩
  | cons e chm ih =>
    intro mn x hx
    simp only [List.foldl_cons]
    by_cases hg : e.system = "geds" ∧ e.loc_string = s ∧ e.loc_position = p
    · rw [if_pos hg]
      have h2 := ih (mnInsert mn id e s p) x hx
      refine ⟨?_, ?_, ?_, ?_⟩
      · rw [h2.1]; simp [mnInsert, hx]
      · rw [h2.2.1]; simp [mnInsert, hx]
      · rw [h2.2.2.1]; simp [mnInsert, hx]
      · rw [h2.2.2.2]; simp [mnInsert, hx]
    · rw [if_neg hg]
      exact ih mn x hx

theorem chfold_nomatch (chm : ChMap) (id s p : Nat) :
    ∀ (mn : MageNames),
      (∀ e ∈ chm, ¬(e.system = "geds" ∧ e.loc_string = s ∧ e.loc_position = p)) →
      chm.foldl (fun acc e =>
          if e.system = "geds" ∧ e.loc_string = s ∧ e.loc_position = p then
            mnInsert acc id e s p else acc) mn = mn := by
  induction chm with
  | nil => intro mn _; rfl
  | cons e chm ih =>
    intro mn h
    simp only [List.foldl_cons]
    rw [if_neg (h e (List.mem_cons_self e chm))]
    exact ih mn (fun e2 he2 => h e2 (List.mem_cons_of_mem e he2))

theorem decDigits_len_ge6 (id : Nat) (h : 100000 ≤ id) : 6 ≤ (decDigits id).length := by
  have hne : id ≠ 0 := by omega
  unfold decDigits
  rw [if_neg hne, digitsAux_eq_digits id id (le_refl id), List.length_reverse]
  have hlen := Nat.digits_len 10 id (by norm_num) hne
  rw [hlen]
  have hlog : 5 ≤ Nat.log 10 id := by
    rw [← Nat.pow_le_iff_le_log (by norm_num) hne]
    calc (10:ℕ) ^ 5 = 100000 := by norm_num
    _ ≤ id := h
  omega

theorem pySlice_nonempty (l : List Nat) (a b : Nat) (hab : a < b) (hl : a < l.length) :
    (pySlice l a b).isEmpty = false := by
  unfold pySlice
  have h1 : (l.drop a).length = l.length - a := List.length_drop a l
  cases hd : l.drop a with
  | nil =>
    rw [hd] at h1
    simp only [List.length_nil] at h1
    omega
  | cons c t =>
    cases hbb : b - a with
    | zero => omega
    | succ m => simp [List.take]

theorem slice35_ok (id : Nat) (h : 100000 ≤ id) :
    intOfDigits (pySlice (decDigits id) 3 5) = Except.ok (mageStringD id) := by
  have hne := pySlice_nonempty (decDigits id) 3 5 (by norm_num)
    (by have := decDigits_len_ge6 id h; omega)
  unfold intOfDigits
  rw [hne]
  rfl

theorem slice57_ok (id : Nat) (h : 100000 ≤ id) :
    intOfDigits (pySlice (decDigits id) 5 7) = Except.ok (magePosD id) := by
  have hne := pySlice_nonempty (decDigits id) 5 7 (by norm_num)
    (by have := decDigits_len_ge6 id h; omega)
  unfold intOfDigits
  rw [hne]
  rfl

theorem process_fold_excluded (chm : ChMap) :
    ∀ (ids : List Nat) (mn : MageNames),
      (∀ id ∈ ids, id = 0 ∨ 100000 ≤ id) →
      (∀ x, ((decDigits x).headD 0 = 0 ∨ ¬ hasLocMatch chm x) →
        mn.channel x = none ∧ mn.name x = none ∧ mn.string x = none ∧
          mn.position x = none) →
      ∃ mn2, efoldl (process_one chm) mn ids = Except.ok mn2 ∧
        (∀ x, ((decDigits x).headD 0 = 0 ∨ ¬ hasLocMatch chm x) →
          mn2.channel x = none ∧ mn2.name x = none ∧ mn2.string x = none ∧
            mn2.position x = none) := by
  intro ids
  induction ids with
  | nil => intro mn _ hinv; exact ⟨mn, rfl, hinv⟩
  | cons id ids ih =>
    intro mn hid hinv
    have hid0 := hid id (List.mem_cons_self id ids)
    have hidrest : ∀ x ∈ ids, x = 0 ∨ 100000 ≤ x :=
      fun x hx => hid x (List.mem_cons_of_mem id hx)
    by_cases hflag : (decDigits id).headD 0 = 0
    · have hstep : process_one chm mn id = Except.ok mn := by
        unfold process_one
        rw [if_pos hflag]
      have hrw : efoldl (process_one chm) mn (id :: ids) =
          efoldl (process_one chm) mn ids := by
        simp only [efoldl, hstep]
      rw [hrw]
      exact ih mn hidrest hinv
    · have hbig : 100000 ≤ id := by
        rcases hid0 with h0 | hb
        · subst h0; exact absurd rfl hflag
        · exact hb
      have hstep : process_one chm mn id = Except.ok
          (chm.foldl (fun acc e =>
            if e.system = "geds" ∧ e.loc_string = mageStringD id ∧
                e.loc_position = magePosD id then
              mnInsert acc id e (mageStringD id) (magePosD id)
            else acc) mn) := by
        unfold process_one
        rw [if_neg hflag, slice35_ok id hbig, slice57_ok id hbig]
      have hrw : efoldl (process_one chm) mn (id :: ids) =
          efoldl (process_one chm)
            (chm.foldl (fun acc e =>
              if e.system = "geds" ∧ e.loc_string = mageStringD id ∧
                  e.loc_position = magePosD id then
                mnInsert acc id e (mageStringD id) (magePosD id)
              else acc) mn) ids := by
        simp only [efoldl, hstep]
      rw [hrw]
      apply ih _ hidrest
      intro x hx
      by_cases hxid : x = id
      · subst hxid
        have hnom : ¬ hasLocMatch chm x := by
          rcases hx with h0 | hnm
          · exact absurd h0 hflag
          · exact hnm
        have hguard : ∀ e ∈ chm,
            ¬(e.system = "geds" ∧ e.loc_string = mageStringD x ∧
              e.loc_position = magePosD x) := by
          intro e he hg
          exact hnom ⟨e, he, hg⟩
        rw [chfold_nomatch chm x (mageStringD x) (magePosD x) mn hguard]
        exact hinv x hx
      · have h4 := chfold_other chm id (mageStringD id) (magePosD id) mn x hxid
        rw [h4.1, h4.2.1, h4.2.2.1, h4.2.2.2]
        exact hinv x hx

/-- C5 (amended): identifiers whose leading-digit germanium flag is zero are
excluded from all four output mappings without error, and flag-set
identifiers of at least six decimal digits with no matching (string,
position) location entry are silently skipped (excluded, no error);
flag-set identifiers of fewer than six digits instead make the resolver
raise (see the counterexample), hence the at-least-six-digit hypothesis
`id = 0 ∨ 100000 ≤ id` on the input list. -/
theorem c5_resolver_excludes (chm : ChMap) (ids : List Nat)
    (hid : ∀ id ∈ ids, id = 0 ∨ 100000 ≤ id) :
    exIsOk (process_mage_id chm ids) = true ∧
    (∀ x : Nat, ((decDigits x).headD 0 = 0 ∨ ¬ hasLocMatch chm x) →
      (exGet (process_mage_id chm ids) mnInit).channel x = none ∧
      (exGet (process_mage_id chm ids) mnInit).name x = none ∧
      (exGet (process_mage_id chm ids) mnInit).string x = none ∧
      (exGet (process_mage_id chm ids) mnInit).position x = none) := by
  obtain ⟨mn2, hok, hinv⟩ := process_fold_excluded chm ids mnInit hid
    (fun x _ => ⟨rfl, rfl, rfl, rfl⟩)
  have hpm : process_mage_id chm ids = Except.ok mn2 := hok
  rw [hpm]
  exact ⟨rfl, hinv⟩

/-- C5 witness: ids 0 (flag unset), 1010101 (matching entry) and 1017777
(flag set, no matching location) against the two-detector channel map. -/
theorem c5_resolver_excludes_witness :
    exIsOk (process_mage_id chmW [0, 1010101, 1017777]) = true ∧
    (exGet (process_mage_id chmW [0, 1010101, 1017777]) mnInit).channel 0 = none ∧
    (exGet (process_mage_id chmW [0, 1010101, 1017777]) mnInit).channel 1017777 = none :=
  ⟨(c5_resolver_excludes chmW [0, 1010101, 1017777] (by decide)).1,
   ((c5_resolver_excludes chmW [0, 1010101, 1017777] (by decide)).2 0
      (Or.inl (by decide))).1,
   ((c5_resolver_excludes chmW [0, 1010101, 1017777] (by decide)).2 1017777
      (Or.inr (by decide))).1⟩

theorem processFile_primaries (cfg : RConfig) (oracle : String → Event → Bool)
    (chm : ChMap) (st : RunState) (f : InputFile) (st2 : RunState)
    (h : processFile cfg oracle chm st f = Except.ok st2) :
    st2.n_primaries = st.n_primaries + f.mage_n_events := by
  unfold processFile at h
  split at h
  · cases h
  · split at h
    · cases h
    · split at h
      · cases h
      · cases h
        rfl

/-- C6: the primaries field of the output is the additive accumulation,
starting from zero, of the raw files' first-entry counts plus every input
file's first-entry `mage_n_events` count, encoded as a string. -/
theorem c6_primaries_total (cfg : RConfig) (oracle : String → Event → Bool)
    (chm : ChMap) (raw_n : List Nat) (files : List InputFile) (out : Output)
    (h : build_pdf cfg oracle chm raw_n files = Except.ok out) :
    out.number_of_primaries =
      toString (raw_n.foldl (fun a b => a + b) 0 +
        (files.map (fun f => f.mage_n_events)).sum) := by
  unfold build_pdf at h
  split at h
  · cases h
  · rename_i st hst
    cases h
    have hsum := efoldl_proj_add (processFile cfg oracle chm)
      (fun s => s.n_primaries) (fun f => f.mage_n_events)
      (fun s a s2 h2 => processFile_primaries cfg oracle chm s a s2 h2)
      files ⟨initHState, raw_n.foldl (fun a b => a + b) 0⟩ st hst
    have hsum2 : st.n_primaries =
        raw_n.foldl (fun a b => a + b) 0 + (files.map (fun f => f.mage_n_events)).sum :=
      hsum
    show toString st.n_primaries = _
    rw [hsum2]

/-- C6 witness: two input files reporting 1000 and 1500 primaries, zero raw
files, yield the string "2500". -/
theorem c6_primaries_total_witness :
    (exGet res6W outDflt).number_of_primaries = "2500" := by
  have h := c6_primaries_total cfgW orW chmW [] [f6a, f6b] (exGet res6W outDflt) rfl
  rw [h]
  rfl

theorem processFile_zero_err (cfg : RConfig) (oracle : String → Event → Bool)
    (chm : ChMap) (f : InputFile) (h0 : f.num_entries = 0) :
    ∀ st, exIsOk (processFile cfg oracle chm st f) = false := by
  intro st
  unfold processFile
  split
  · rfl
  · rw [if_pos h0]
    rfl

/-- C7 (amended): an input file with zero events in its event tree is always
fatal — the run terminates with an error raised before any histogram fill
from that file.  When the basename's period/run parse succeeds (an `rNNN`
token is present whenever a `pNN` token is), the abort carries the
diagnostic RuntimeError message naming the file; otherwise the abort is the
earlier `run[0]` IndexError, which does not name the file (see the
counterexample). -/
theorem c7_zero_events_fatal (cfg : RConfig) (oracle : String → Event → Bool)
    (chm : ChMap) (raw_n : List Nat) (files : List InputFile)
    (f : InputFile) (st : RunState) (h0 : f.num_entries = 0) :
    ((get_period (fileEnd f.name) ≠ [] → get_run (fileEnd f.name) ≠ []) →
      processFile cfg oracle chm st f =
        Except.error ("ERROR: MPP evt file " ++ f.name ++ " has 0 events in simTree")) ∧
    (f ∈ files → exIsOk (build_pdf cfg oracle chm raw_n files) = false) := by
  constructor
  · intro hparse
    have hkey : ∃ pr, periodRunKey f.name = Except.ok pr := by
      unfold periodRunKey
      by_cases hp : 0 < (get_period (fileEnd f.name)).length
      · rw [if_pos hp]
        have hpne : get_period (fileEnd f.name) ≠ [] := by
          intro hh
          rw [hh] at hp
          simp at hp
        cases hr : get_run (fileEnd f.name) with
        | nil => exact absurd hr (hparse hpne)
        | cons r rs => exact ⟨_, rfl⟩
      · rw [if_neg hp]
        exact ⟨_, rfl⟩
    obtain ⟨pr, hpr⟩ := hkey
    unfold processFile
    split
    · rename_i e heq
      rw [hpr] at heq
      cases heq
    · rw [if_pos h0]
  · intro hmem
    have hbad := processFile_zero_err cfg oracle chm f h0
    have herr := efoldl_err (processFile cfg oracle chm) f hbad files hmem
      ⟨initHState, raw_n.foldl (fun a b => a + b) 0⟩
    unfold build_pdf
    cases hres : efoldl (processFile cfg oracle chm)
        ⟨initHState, raw_n.foldl (fun a b => a + b) 0⟩ files with
    | error e => rfl
    | ok st2 =>
      rw [hres] at herr
      cases herr

/-- C7 witness: a zero-event file with a well-formed basename aborts with the
diagnostic message, and the run containing it fails. -/
theorem c7_zero_events_fatal_witness :
    processFile cfgW orW chmW ⟨initHState, 0⟩ fW7 =
      Except.error ("ERROR: MPP evt file " ++ fW7.name ++ " has 0 events in simTree") ∧
    exIsOk (build_pdf cfgW orW chmW [] [fW7]) = false :=
  ⟨(c7_zero_events_fatal cfgW orW chmW [] [fW7] fW7 ⟨initHState, 0⟩ rfl).1
     (fun _ => by decide),
   (c7_zero_events_fatal cfgW orW chmW [] [fW7] fW7 ⟨initHState, 0⟩ rfl).2
     (List.mem_singleton.mpr rfl)⟩

theorem stringDiff_le_five (s1 s2 : Int) : stringDiff s1 s2 ≤ 5 := by
  unfold stringDiff
  have h11 : (11 : Int) ≠ 0 := by decide
  have h11p : (0 : Int) < 11 := by decide
  have ha0 : 0 ≤ (s1 - s2) % 11 := Int.emod_nonneg _ h11
  have ha1 : (s1 - s2) % 11 < 11 := Int.emod_lt_of_pos _ h11p
  have hb0 : 0 ≤ (-s1 + s2) % 11 := Int.emod_nonneg _ h11
  have hb1 : (-s1 + s2) % 11 < 11 := Int.emod_lt_of_pos _ h11p
  have hsum : ((s1 - s2) % 11 + (-s1 + s2) % 11) % 11 = 0 := by
    rw [← Int.add_emod]
    have : s1 - s2 + (-s1 + s2) = 0 := by ring
    rw [this]
    decide
  rcases le_total ((s1 - s2) % 11) ((-s1 + s2) % 11) with hle | hle
  · rw [min_eq_left hle]
    omega
  · rw [min_eq_right hle]
    omega

theorem emap_ok_forall {α β : Type} (f : α → Except String β) :
    ∀ (l : List α) (r : List β), emap f l = Except.ok r →
      ∀ b ∈ r, ∃ a ∈ l, f a = Except.ok b := by
  intro l
  induction l with
  | nil =>
    intro r h b hb
    cases h
    cases hb
  | cons a l ih =>
    intro r h b hb
    simp only [emap] at h
    cases hfa : f a with
    | error e => rw [hfa] at h; cases h
    | ok b1 =>
      rw [hfa] at h
      cases hrest : emap f l with
      | error e => rw [hrest] at h; cases h
      | ok bs =>
        rw [hrest] at h
        cases h
        rcases List.mem_cons.mp hb with hb1 | hbs
        · exact ⟨a, List.mem_cons_self a l, by rw [hfa, hb1]⟩
        · obtain ⟨a2, ha2, hfa2⟩ := ih bs hrest b hbs
          exact ⟨a2, List.mem_cons_of_mem a ha2, hfa2⟩

theorem sd_values_le (pairs : List (Nat × Nat)) (cS cP : Nat → Except String Int)
    (sdfd : List Int × List Int)
    (h : get_string_row_diff pairs cS cP = Except.ok sdfd) :
    ∀ x ∈ sdfd.1, x ≤ 5 := by
  unfold get_string_row_diff at h
  cases hsd : emap (sdPair cS) pairs with
  | error e => rw [hsd] at h; cases h
  | ok sd =>
    rw [hsd] at h
    cases hfd : emap (fdPair cP) pairs with
    | error e => rw [hfd] at h; cases h
    | ok fd =>
      rw [hfd] at h
      cases h
      intro x hx
      obtain ⟨pr, _, hpr⟩ := emap_ok_forall (sdPair cS) pairs sd hsd x hx
      unfold sdPair at hpr
      split at hpr
      · cases hpr
      · split at hpr
        · cases hpr
        · cases hpr
          exact stringDiff_le_five _ _

theorem selectWhere2_high_nil (vals : List Int) (t : Int) (xs ys : List ℤ)
    (h : ∀ x ∈ vals, x ≤ 5) (ht : 5 < t) :
    selectWhere2 vals t xs ys = [] := by
  unfold selectWhere2
  rw [List.filter_eq_nil_iff.mpr]
  · rfl
  · intro q hq
    have hq1 := (List.of_mem_zip hq).1
    have := h q.1 hq1
    simp only [decide_eq_true_eq]
    omega

theorem fill2dGo_sd6 (cS cP : Nat → Except String Int) (rows : List (List Nat))
    (e1 e2 : List ℤ) :
    ∀ (names : List String) (h2 h2' : String → List (ℤ × ℤ)),
      fill2dGo cS cP rows e1 e2 names h2 = Except.ok h2' →
      h2' "sd_6" = h2 "sd_6" := by
  intro names
  induction names with
  | nil =>
    intro h2 h2' h
    cases h
    rfl
  | cons nm rest ih =>
    intro h2 h2' h
    simp only [fill2dGo] at h
    split at h
    · cases h
    · rename_i tmp heq
      split at h
      · exact ih h2 h2' h
      · rename_i hlen
        have hpres := ih _ h2' h
        by_cases hnm : nm = "sd_6"
        · subst hnm
          rw [if_pos (by decide : ("sd_6" : String) ≠ "all")] at heq
          split at heq
          · cases heq
          · split at heq
            · cases heq
            · split at heq
              · cases heq
              · rename_i pairs hpairs cats hcats sdfd hsdfd
                have heq2 : Except.ok (selectWhere2 sdfd.1 (Int.ofNat 6) e2 e1) =
                    Except.ok tmp := heq
                cases heq2
                have hnil : selectWhere2 sdfd.1 (Int.ofNat 6) e2 e1 = [] :=
                  selectWhere2_high_nil sdfd.1 (Int.ofNat 6) e2 e1
                    (sd_values_le _ cS cP sdfd hsdfd) (by decide)
                rw [hnil] at hlen
                exact absurd rfl hlen
        · rw [hpres]
          have : update1 h2 nm (h2 nm ++ tmp) "sd_6" = h2 "sd_6" := by
            unfold update1
            rw [if_neg (fun hh => hnm hh.symm)]
          rw [this]

theorem fill2d_sd6 (cS cP : Nat → Except String Int) (evs : List Event)
    (h2 h2' : String → List (ℤ × ℤ))
    (h : fill2d cS cP evs h2 = Except.ok h2') :
    h2' "sd_6" = h2 "sd_6" := by
  unfold fill2d at h
  split at h
  · cases h
  · split at h
    · cases h
    · exact fill2dGo_sd6 _ _ _ _ _ names_m2 h2 h2' h

theorem cutStep_sd6 (oracle : String → Event → Bool) (pr : String) (cm : MageNames)
    (ids : List Nat) (cleaned : List Event) (st : HState) (cut : CutSpec)
    (st2 : HState) (h : cutStep oracle pr cm ids cleaned st cut = Except.ok st2) :
    ∀ c, st2.hists_2d c "sd_6" = st.hists_2d c "sd_6" := by
  unfold cutStep at h
  split at h
  · split at h
    · cases h
    · cases h
      intro c
      rfl
  · split at h
    · split at h
      · cases h
      · rename_i h2 hfill
        cases h
        intro c
        show (if c = cut.name then h2 "sd_6" else st.hists_2d c "sd_6") = _
        by_cases hc : c = cut.name
        · rw [if_pos hc, fill2d_sd6 _ _ _ _ _ hfill, hc]
        · rw [if_neg hc]
    · cases h
      intro c
      rfl

theorem processBatch_sd6 (cfg : RConfig) (oracle : String → Event → Bool)
    (chm : ChMap) (pr : String) (st : HState) (evs : List Event) (st2 : HState)
    (h : processBatch cfg oracle chm pr st evs = Except.ok st2) :
    ∀ c, st2.hists_2d c "sd_6" = st.hists_2d c "sd_6" := by
  unfold processBatch at h
  split at h
  · cases h
  · rename_i cm hcm
    split at h
    · cases h
    · rename_i cleaned hclean
      intro c
      refine efoldl_ok_preserve _
        (fun s => s.hists_2d c "sd_6" = st.hists_2d c "sd_6") ?_
        cfg.cuts st st2 h rfl
      intro s a s2 hstep hp
      have hp2 : s.hists_2d c "sd_6" = st.hists_2d c "sd_6" := hp
      show s2.hists_2d c "sd_6" = st.hists_2d c "sd_6"
      rw [cutStep_sd6 oracle pr cm _ cleaned s a s2 hstep c, hp2]

theorem processFile_sd6 (cfg : RConfig) (oracle : String → Event → Bool)
    (chm : ChMap) (st : RunState) (f : InputFile) (st2 : RunState)
    (h : processFile cfg oracle chm st f = Except.ok st2) :
    ∀ c, st2.hstate.hists_2d c "sd_6" = st.hstate.hists_2d c "sd_6" := by
  unfold processFile at h
  split at h
  · cases h
  · rename_i pr hpr
    split at h
    · cases h
    · split at h
      · cases h
      · rename_i hst hfold
        cases h
        intro c
        exact efoldl_ok_preserve _
          (fun s => s.hists_2d c "sd_6" = st.hstate.hists_2d c "sd_6")
          (fun s a s2 hstep hp => by
            have hp2 : s.hists_2d c "sd_6" = st.hstate.hists_2d c "sd_6" := hp
            show s2.hists_2d c "sd_6" = st.hstate.hists_2d c "sd_6"
            rw [processBatch_sd6 cfg oracle chm pr s a s2 hstep c, hp2])
          f.batches st.hstate hst hfold rfl

/-- C10: the circular minimum string distance is at most 5 for every pair of
string indices, so the `sd_6` selection is empty for every batch and the
`sd_6` bucket histogram of every 2-D cut has zero entries at output time. -/
theorem c10_sd6_never_filled (cfg : RConfig) (oracle : String → Event → Bool)
    (chm : ChMap) (raw_n : List Nat) (files : List InputFile) (out : Output)
    (h : build_pdf cfg oracle chm raw_n files = Except.ok out) :
    (∀ s1 s2 : Int, stringDiff s1 s2 ≤ 5) ∧
    (∀ cut : String, out.hists_2d cut "sd_6" = []) := by
  refine ⟨stringDiff_le_five, ?_⟩
  unfold build_pdf at h
  split at h
  · cases h
  · rename_i st hst
    cases h
    intro cut
    show st.hstate.hists_2d cut "sd_6" = []
    exact efoldl_ok_preserve _ (fun s => s.hstate.hists_2d cut "sd_6" = [])
      (fun s a s2 hstep hp => by
        have hp2 : s.hstate.hists_2d cut "sd_6" = [] := hp
        show s2.hstate.hists_2d cut "sd_6" = []
        rw [processFile_sd6 cfg oracle chm s a s2 hstep cut, hp2])
      files ⟨initHState, raw_n.foldl (fun a b => a + b) 0⟩ st hst rfl

/-- C10 witness: a full 2-D pipeline run whose batch fills `sd_0`, `cat_1`
and "all", while `sd_6` stays empty. -/
theorem c10_sd6_never_filled_witness :
    (exGet res2W outDflt).hists_2d "m2" "sd_6" = [] ∧
    stringDiff 4 9 ≤ 5 :=
  ⟨(c10_sd6_never_filled cfg2W orW chmW [] [f2W] (exGet res2W outDflt) rfl).2 "m2",
   (c10_sd6_never_filled cfg2W orW chmW [] [f2W] (exGet res2W outDflt) rfl).1 4 9⟩

/-- C8 (amended): empty-result conditions in the fill steps are handled as
follows.  An empty cut string passes the full post-cleaning batch through;
for plain cuts, a channel with zero matching hits is silently skipped (no
error, both its global and run histograms unchanged); for summed cuts an
empty filtered batch is silently skipped; for 2-D cuts a bucket with zero
matching events (exemplified by the always-empty `sd_6` selection) leaves
that bucket unchanged when the fill succeeds, but a 2-D cut whose filter
selects zero events raises (`np.vstack` of an empty list) instead of being
skipped — see the counterexample. -/
theorem c8_empty_results_skipped :
    (∀ (oracle : String → Event → Bool) (evs : List Event),
      applyCut oracle "" evs = evs) ∧
    (∀ hs : List ℤ, sumFill [] hs = hs) ∧
    (∀ (cS cP : Nat → Except String Int) (h2 : String → List (ℤ × ℤ)),
      fill2d cS cP [] h2 =
        Except.error "ValueError: need at least one array to concatenate") ∧
    (∀ (cS cP : Nat → Except String Int) (evs : List Event)
        (h2 h2' : String → List (ℤ × ℤ)),
      fill2d cS cP evs h2 = Except.ok h2' → h2' "sd_6" = h2 "sd_6") ∧
    (∀ (cm : MageNames) (id : Nat) (r : String) (evs : List Event)
        (hc : String → List ℤ) (rh : List ℤ),
      cm.channel id = some r →
      (∀ ev ∈ evs, ev.energy.length = ev.mage_id.length) →
      chanEnergies evs id = [] →
      exIsOk (plainFill cm [id] evs hc rh) = true ∧
      (∀ k, (exGet (plainFill cm [id] evs hc rh) pfDflt).1 k = hc k) ∧
      (exGet (plainFill cm [id] evs hc rh) pfDflt).2 = rh) := by
  refine ⟨fun oracle evs => rfl, fun hs => rfl, fun cS cP h2 => rfl,
    fun cS cP evs h2 h2' h => fill2d_sd6 cS cP evs h2 h2' h, ?_⟩
  intro cm id r evs hc rh hr hwf hnil
  have hres : ∀ x ∈ [id], (cm.channel x).isSome = true := by
    intro x hx
    rw [List.mem_singleton.mp hx, hr]
    rfl
  obtain ⟨res, hok, hkk, hrr⟩ := plainFill_char cm evs hwf [id] hc rh hres
  rw [hok]
  refine ⟨rfl, fun k => ?_, ?_⟩
  · have h1 := hkk k
    by_cases hp : cm.channel id = some k
    · simp [List.filter_cons, hp, hnil] at h1
      exact h1
    · simp [List.filter_cons, hp] at h1
      exact h1
  · show res.2 = rh
    rw [hrr]
    simp [hnil]

/-- C8 witness: a plain-cut channel with zero matching hits in the batch is
skipped without error, and the empty cut string passes the batch through. -/
theorem c8_empty_results_skipped_witness :
    applyCut orW "" evs8w = evs8w ∧
    exIsOk (plainFill cm1x [1010101] evs8w (fun _ => []) []) = true ∧
    (exGet (plainFill cm1x [1010101] evs8w (fun _ => []) []) pfDflt).1 "ch1" =
      (fun _ => ([] : List ℤ)) "ch1" :=
  ⟨c8_empty_results_skipped.1 orW evs8w,
   (c8_empty_results_skipped.2.2.2.2 cm1x 1010101 "ch1" evs8w (fun _ => []) []
      (by decide) (by decide) (by decide)).1,
   ((c8_empty_results_skipped.2.2.2.2 cm1x 1010101 "ch1" evs8w (fun _ => []) []
      (by decide) (by decide) (by decide)).2.1) "ch1"⟩

theorem chKey_ne (s t : String) (ht : t.data.take 2 ≠ ['c', 'h']) : ("ch" ++ s) ≠ t := by
  intro h
  have h2 := congrArg String.data h
  rw [String.data_append] at h2
  rw [show "ch".data = ['c', 'h'] from rfl] at h2
  rw [← h2] at ht
  simp at ht

theorem chKey_ne_all (s : String) : ("ch" ++ s) ≠ "all" :=
  chKey_ne s "all" (by decide)

theorem chKey_not_type (s : String) : ("ch" ++ s) ∉ detTypes := by
  intro hmem
  simp only [detTypes, List.mem_cons, List.not_mem_nil, or_false] at hmem
  rcases hmem with h | h | h | h
  · exact chKey_ne s "bege" (by decide) h
  · exact chKey_ne s "coax" (by decide) h
  · exact chKey_ne s "icpc" (by decide) h
  · exact chKey_ne s "ppc" (by decide) h

theorem geds_mapping_shape (chm : ChMap) :
    ∀ p ∈ geds_mapping chm, ∃ s, p.1 = "ch" ++ s := by
  intro p hp
  unfold geds_mapping at hp
  rw [List.mem_filterMap] at hp
  obtain ⟨e, he, hpe⟩ := hp
  by_cases hsys : e.system = "geds"
  · rw [if_pos hsys] at hpe
    cases hpe
    exact ⟨toString e.rawid, rfl⟩
  · rw [if_neg hsys] at hpe
    cases hpe

theorem geds_mapping_dtype (chm : ChMap) (Hty : ∀ e ∈ chm, e.dtype ∈ detTypes) :
    ∀ p ∈ geds_mapping chm, dtypeOf chm p.2 ∈ detTypes := by
  intro p hp
  unfold geds_mapping at hp
  rw [List.mem_filterMap] at hp
  obtain ⟨e, he, hpe⟩ := hp
  by_cases hsys : e.system = "geds"
  · rw [if_pos hsys] at hpe
    cases hpe
    unfold dtypeOf
    cases hfind : List.find? (fun e2 => decide (e2.name = e.name)) chm with
    | none =>
      exfalso
      have := List.find?_eq_none.mp hfind e he
      simp at this
    | some e2 =>
      exact Hty e2 (List.mem_of_find?_eq_some hfind)
  · rw [if_neg hsys] at hpe
    cases hpe

theorem all_not_type : ("all" : String) ∉ detTypes := by decide

theorem type_ne_all (t : String) (ht : t ∈ detTypes) : t ≠ "all" := by
  intro h
  rw [h] at ht
  exact all_not_type ht

theorem gcAdd_vals (chm : ChMap) (cut : String) (acc : String → String → List ℤ)
    (p : String × String) (hshape : ∃ s, p.1 = "ch" ++ s)
    (hdt : dtypeOf chm p.2 ∈ detTypes) :
    (∀ c k, c ≠ cut → gcAdd chm cut acc p c k = acc c k) ∧
    (∀ k, k ≠ "all" → k ∉ detTypes → gcAdd chm cut acc p cut k = acc cut k) ∧
    (gcAdd chm cut acc p cut "all" = acc cut "all" ++ acc cut p.1) ∧
    (∀ t ∈ detTypes, gcAdd chm cut acc p cut t =
      (if dtypeOf chm p.2 = t then acc cut t ++ acc cut p.1 else acc cut t)) := by
  obtain ⟨s, hs⟩ := hshape
  have hp1a : p.1 ≠ "all" := by rw [hs]; exact chKey_ne_all s
  have hp1t : p.1 ∉ detTypes := by rw [hs]; exact chKey_not_type s
  have hp1d : p.1 ≠ dtypeOf chm p.2 := fun hh => hp1t (hh ▸ hdt)
  have halld : ("all" : String) ≠ dtypeOf chm p.2 := fun hh => all_not_type (hh ▸ hdt)
  refine ⟨?_, ?_, ?_, ?_⟩
  · intro c k hc
    unfold gcAdd gcTypeAdd
    rw [if_neg (fun hh => hc hh.1), if_neg (fun hh => hc hh.1)]
  · intro k hka hkt
    have hkd : k ≠ dtypeOf chm p.2 := fun hh => hkt (hh ▸ hdt)
    unfold gcAdd gcTypeAdd
    rw [if_neg (fun hh => hka hh.2), if_neg (fun hh => hkd hh.2)]
  · unfold gcAdd gcTypeAdd
    rw [if_pos ⟨rfl, rfl⟩, if_neg (fun hh => halld hh.2), if_neg (fun hh => hp1d hh.2)]
  · intro t ht
    have hta := type_ne_all t ht
    unfold gcAdd gcTypeAdd
    rw [if_neg (fun hh => hta hh.2)]
    by_cases htd : t = dtypeOf chm p.2
    · rw [if_pos ⟨rfl, htd⟩, ← htd, if_pos rfl]
    · rw [if_neg (fun hh => htd hh.2), if_neg (fun hh => htd hh.symm)]

theorem gcFold_char (chm : ChMap) (cut : String) :
    ∀ (l : List (String × String)) (acc : String → String → List ℤ),
      (∀ p ∈ l, ∃ s, p.1 = "ch" ++ s) →
      (∀ p ∈ l, dtypeOf chm p.2 ∈ detTypes) →
      (∀ c k, c ≠ cut → l.foldl (gcAdd chm cut) acc c k = acc c k) ∧
      (∀ k, k ≠ "all" → k ∉ detTypes → l.foldl (gcAdd chm cut) acc cut k = acc cut k) ∧
      (l.foldl (gcAdd chm cut) acc cut "all" =
        acc cut "all" ++ (l.map (fun p => acc cut p.1)).flatten) ∧
      (∀ t ∈ detTypes, l.foldl (gcAdd chm cut) acc cut t =
        acc cut t ++ ((l.filter (fun p => decide (dtypeOf chm p.2 = t))).map
          (fun p => acc cut p.1)).flatten) := by
  intro l
  induction l with
  | nil =>
    intro acc _ _
    refine ⟨fun c k _ => rfl, fun k _ _ => rfl, by simp, fun t _ => by simp⟩
  | cons p l ih =>
    intro acc hshape hdt
    have hp := gcAdd_vals chm cut acc p (hshape p (List.mem_cons_self p l))
      (hdt p (List.mem_cons_self p l))
    have ihl := ih (gcAdd chm cut acc p)
      (fun q hq => hshape q (List.mem_cons_of_mem p hq))
      (fun q hq => hdt q (List.mem_cons_of_mem p hq))
    have hqpres : ∀ q ∈ l, gcAdd chm cut acc p cut q.1 = acc cut q.1 := by
      intro q hq
      obtain ⟨s, hs⟩ := hshape q (List.mem_cons_of_mem p hq)
      exact hp.2.1 q.1 (hs ▸ chKey_ne_all s) (hs ▸ chKey_not_type s)
    refine ⟨?_, ?_, ?_, ?_⟩
    · intro c k hc
      rw [List.foldl_cons, ihl.1 c k hc, hp.1 c k hc]
    · intro k hka hkt
      rw [List.foldl_cons, ihl.2.1 k hka hkt, hp.2.1 k hka hkt]
    · rw [List.foldl_cons, ihl.2.2.1, hp.2.2.1]
      rw [List.map_cons, List.flatten_cons, List.append_assoc]
      congr 2
      exact congrArg List.flatten (List.map_congr_left hqpres)
    · intro t ht
      by_cases htd : dtypeOf chm p.2 = t
      · have hd : decide (dtypeOf chm p.2 = t) = true := by simp [htd]
        rw [List.foldl_cons, ihl.2.2.2 t ht, hp.2.2.2 t ht, if_pos htd,
          List.filter_cons, hd, if_pos rfl]
        rw [List.map_cons, List.flatten_cons, List.append_assoc]
        congr 2
        apply congrArg List.flatten
        apply List.map_congr_left
        intro q hq
        exact hqpres q (List.mem_of_mem_filter hq)
      · have hd : decide (dtypeOf chm p.2 = t) = false := by simp [htd]
        rw [List.foldl_cons, ihl.2.2.2 t ht, hp.2.2.2 t ht, if_neg htd,
          List.filter_cons, hd, if_neg (by simp)]
        congr 1
        apply congrArg List.flatten
        apply List.map_congr_left
        intro q hq
        exact hqpres q (List.mem_of_mem_filter hq)

theorem gcBase_vals (cut : String) (h : String → String → List ℤ) :
    (∀ c k, c ≠ cut →
      (detTypes.foldl
        (fun acc t => fun c2 k2 => if c2 = cut ∧ k2 = t then ([] : List ℤ) else acc c2 k2)
        (fun c2 k2 => if c2 = cut ∧ k2 = "all" then ([] : List ℤ) else h c2 k2)) c k
        = h c k) ∧
    (∀ k, k ≠ "all" → k ∉ detTypes →
      (detTypes.foldl
        (fun acc t => fun c2 k2 => if c2 = cut ∧ k2 = t then ([] : List ℤ) else acc c2 k2)
        (fun c2 k2 => if c2 = cut ∧ k2 = "all" then ([] : List ℤ) else h c2 k2)) cut k
        = h cut k) ∧
    ((detTypes.foldl
        (fun acc t => fun c2 k2 => if c2 = cut ∧ k2 = t then ([] : List ℤ) else acc c2 k2)
        (fun c2 k2 => if c2 = cut ∧ k2 = "all" then ([] : List ℤ) else h c2 k2)) cut "all"
        = []) ∧
    (∀ t ∈ detTypes,
      (detTypes.foldl
        (fun acc t => fun c2 k2 => if c2 = cut ∧ k2 = t then ([] : List ℤ) else acc c2 k2)
        (fun c2 k2 => if c2 = cut ∧ k2 = "all" then ([] : List ℤ) else h c2 k2)) cut t
        = []) := by
  refine ⟨?_, ?_, ?_, ?_⟩
  · intro c k hc
    simp only [detTypes, List.foldl_cons, List.foldl_nil]
    simp [hc]
  · intro k hka hkt
    simp only [detTypes, List.mem_cons, List.not_mem_nil, or_false] at hkt
    push_neg at hkt
    obtain ⟨h1, h2, h3, h4⟩ := hkt
    simp only [detTypes, List.foldl_cons, List.foldl_nil]
    simp [hka, h1, h2, h3, h4]
  · simp only [detTypes, List.foldl_cons, List.foldl_nil]
    simp
  · intro t ht
    simp only [detTypes, List.mem_cons, List.not_mem_nil, or_false] at ht
    rcases ht with h1 | h1 | h1 | h1 <;> subst h1 <;>
      simp only [detTypes, List.foldl_cons, List.foldl_nil] <;> simp

theorem groupCut_char (chm : ChMap) (cut : String) (h : String → String → List ℤ)
    (Hty : ∀ e ∈ chm, e.dtype ∈ detTypes) :
    (∀ c k, c ≠ cut → groupCut chm cut h c k = h c k) ∧
    (∀ k, k ≠ "all" → k ∉ detTypes → groupCut chm cut h cut k = h cut k) ∧
    (groupCut chm cut h cut "all" =
      ((geds_mapping chm).map (fun p => h cut p.1)).flatten) ∧
    (∀ t ∈ detTypes, groupCut chm cut h cut t =
      (((geds_mapping chm).filter (fun p => decide (dtypeOf chm p.2 = t))).map
        (fun p => h cut p.1)).flatten) := by
  have hbase := gcBase_vals cut h
  have hfold := gcFold_char chm cut (geds_mapping chm)
    (detTypes.foldl
      (fun acc t => fun c2 k2 => if c2 = cut ∧ k2 = t then ([] : List ℤ) else acc c2 k2)
      (fun c2 k2 => if c2 = cut ∧ k2 = "all" then ([] : List ℤ) else h c2 k2))
    (geds_mapping_shape chm) (geds_mapping_dtype chm Hty)
  have hpres : ∀ q ∈ geds_mapping chm,
      (detTypes.foldl
        (fun acc t => fun c2 k2 => if c2 = cut ∧ k2 = t then ([] : List ℤ) else acc c2 k2)
        (fun c2 k2 => if c2 = cut ∧ k2 = "all" then ([] : List ℤ) else h c2 k2)) cut q.1
        = h cut q.1 := by
    intro q hq
    obtain ⟨s, hs⟩ := geds_mapping_shape chm q hq
    exact hbase.2.1 q.1 (hs ▸ chKey_ne_all s) (hs ▸ chKey_not_type s)
  refine ⟨?_, ?_, ?_, ?_⟩
  · intro c k hc
    show (geds_mapping chm).foldl (gcAdd chm cut) _ c k = h c k
    rw [hfold.1 c k hc, hbase.1 c k hc]
  · intro k hka hkt
    show (geds_mapping chm).foldl (gcAdd chm cut) _ cut k = h cut k
    rw [hfold.2.1 k hka hkt, hbase.2.1 k hka hkt]
  · show (geds_mapping chm).foldl (gcAdd chm cut) _ cut "all" = _
    rw [hfold.2.2.1, hbase.2.2.1, List.nil_append]
    exact congrArg List.flatten (List.map_congr_left hpres)
  · intro t ht
    show (geds_mapping chm).foldl (gcAdd chm cut) _ cut t = _
    rw [hfold.2.2.2 t ht, hbase.2.2.2 t ht, List.nil_append]
    apply congrArg List.flatten
    apply List.map_congr_left
    intro q hq
    exact hpres q (List.mem_of_mem_filter hq)

theorem mg_pres (chm : ChMap) (Hty : ∀ e ∈ chm, e.dtype ∈ detTypes) :
    ∀ (cuts : List String) (h : String → String → List ℤ) (c2 k : String),
      k ≠ "all" → k ∉ detTypes → makeGrouped chm cuts h c2 k = h c2 k := by
  intro cuts
  induction cuts with
  | nil => intro h c2 k _ _; rfl
  | cons c cs ih =>
    intro h c2 k hka hkt
    have hg := groupCut_char chm c h Hty
    have h1 : groupCut chm c h c2 k = h c2 k := by
      by_cases hc : c2 = c
      · subst hc
        exact hg.2.1 k hka hkt
      · exact hg.1 c2 k hc
    calc makeGrouped chm (c :: cs) h c2 k
        = makeGrouped chm cs (groupCut chm c h) c2 k := rfl
      _ = groupCut chm c h c2 k := ih (groupCut chm c h) c2 k hka hkt
      _ = h c2 k := h1

theorem mg_other (chm : ChMap) (Hty : ∀ e ∈ chm, e.dtype ∈ detTypes) :
    ∀ (cuts : List String) (h : String → String → List ℤ) (cut : String),
      cut ∉ cuts → ∀ k, makeGrouped chm cuts h cut k = h cut k := by
  intro cuts
  induction cuts with
  | nil => intro h cut _ k; rfl
  | cons c cs ih =>
    intro h cut hnot k
    have hne : cut ≠ c := fun hh => hnot (hh ▸ List.mem_cons_self c cs)
    have hnin : cut ∉ cs := fun hh => hnot (List.mem_cons_of_mem c hh)
    calc makeGrouped chm (c :: cs) h cut k
        = makeGrouped chm cs (groupCut chm c h) cut k := rfl
      _ = groupCut chm c h cut k := ih (groupCut chm c h) cut hnin k
      _ = h cut k := (groupCut_char chm c h Hty).1 cut k hne

theorem mg_char (chm : ChMap) (Hty : ∀ e ∈ chm, e.dtype ∈ detTypes) :
    ∀ (cuts : List String) (h : String → String → List ℤ) (cut : String),
      cut ∈ cuts →
      (makeGrouped chm cuts h cut "all" =
        ((geds_mapping chm).map (fun p => h cut p.1)).flatten) ∧
      (∀ t ∈ detTypes, makeGrouped chm cuts h cut t =
        (((geds_mapping chm).filter (fun p => decide (dtypeOf chm p.2 = t))).map
          (fun p => h cut p.1)).flatten) := by
  intro cuts
  induction cuts with
  | nil => intro h cut hcut; cases hcut
  | cons c cs ih =>
    intro h cut hcut
    have hmap : ∀ q ∈ geds_mapping chm, groupCut chm c h cut q.1 = h cut q.1 := by
      intro q hq
      obtain ⟨s, hs⟩ := geds_mapping_shape chm q hq
      by_cases hc : cut = c
      · subst hc
        exact (groupCut_char chm cut h Hty).2.1 q.1 (hs ▸ chKey_ne_all s)
          (hs ▸ chKey_not_type s)
      · exact (groupCut_char chm c h Hty).1 cut q.1 hc
    by_cases hin : cut ∈ cs
    · have hi := ih (groupCut chm c h) cut hin
      constructor
      · calc makeGrouped chm (c :: cs) h cut "all"
            = ((geds_mapping chm).map (fun p => groupCut chm c h cut p.1)).flatten := hi.1
          _ = ((geds_mapping chm).map (fun p => h cut p.1)).flatten :=
              congrArg List.flatten (List.map_congr_left hmap)
      · intro t ht
        calc makeGrouped chm (c :: cs) h cut t
            = (((geds_mapping chm).filter (fun p => decide (dtypeOf chm p.2 = t))).map
                (fun p => groupCut chm c h cut p.1)).flatten := hi.2 t ht
          _ = (((geds_mapping chm).filter (fun p => decide (dtypeOf chm p.2 = t))).map
                (fun p => h cut p.1)).flatten := by
              apply congrArg List.flatten
              apply List.map_congr_left
              intro q hq
              exact hmap q (List.mem_of_mem_filter hq)
    · have hc : cut = c := by
        rcases List.mem_cons.mp hcut with hh | hh
        · exact hh
        · exact absurd hh hin
      subst hc
      constructor
      · calc makeGrouped chm (cut :: cs) h cut "all"
            = makeGrouped chm cs (groupCut chm cut h) cut "all" := rfl
          _ = groupCut chm cut h cut "all" :=
              mg_other chm Hty cs (groupCut chm cut h) cut hin "all"
          _ = ((geds_mapping chm).map (fun p => h cut p.1)).flatten :=
              (groupCut_char chm cut h Hty).2.2.1
      · intro t ht
        calc makeGrouped chm (cut :: cs) h cut t
            = makeGrouped chm cs (groupCut chm cut h) cut t := rfl
          _ = groupCut chm cut h cut t :=
              mg_other chm Hty cs (groupCut chm cut h) cut hin t
          _ = (((geds_mapping chm).filter (fun p => decide (dtypeOf chm p.2 = t))).map
                (fun p => h cut p.1)).flatten :=
              (groupCut_char chm cut h Hty).2.2.2 t ht

/-- C2: after all input files are processed, the grouped "all" histogram of
every plain cut is bin-wise (count-wise, for every fill value) the sum of all
per-channel histograms of that cut, and each detector-type histogram is the
bin-wise sum of the per-channel histograms of the channels of that type.  The
grouping runs once, after the accumulating file loop (`build_pdf` applies
`makeGrouped` to the final fold state).  Hypothesis: every channel-map entry
carries one of the four detector-type labels. -/
theorem c2_grouped_hist_sum (cfg : RConfig) (oracle : String → Event → Bool)
    (chm : ChMap) (raw_n : List Nat) (files : List InputFile) (out : Output)
    (Hty : ∀ e ∈ chm, e.dtype ∈ detTypes)
    (h : build_pdf cfg oracle chm raw_n files = Except.ok out) :
    ∀ cut ∈ plainCutNames cfg,
      (∀ v : ℤ, (out.hists cut "all").count v =
        ((geds_mapping chm).map (fun p => (out.hists cut p.1).count v)).sum) ∧
      (∀ t ∈ detTypes, ∀ v : ℤ, (out.hists cut t).count v =
        (((geds_mapping chm).filter (fun p => decide (dtypeOf chm p.2 = t))).map
          (fun p => (out.hists cut p.1).count v)).sum) := by
  unfold build_pdf at h
  split at h
  · cases h
  · rename_i st hst
    cases h
    intro cut hcut
    have hm := mg_char chm Hty (plainCutNames cfg) st.hstate.hists cut hcut
    have hpres : ∀ q ∈ geds_mapping chm,
        makeGrouped chm (plainCutNames cfg) st.hstate.hists cut q.1 =
          st.hstate.hists cut q.1 := by
      intro q hq
      obtain ⟨s, hs⟩ := geds_mapping_shape chm q hq
      exact mg_pres chm Hty (plainCutNames cfg) st.hstate.hists cut q.1
        (hs ▸ chKey_ne_all s) (hs ▸ chKey_not_type s)
    constructor
    · intro v
      show (makeGrouped chm (plainCutNames cfg) st.hstate.hists cut "all").count v = _
      rw [hm.1, List.count_flatten, List.map_map]
      apply congrArg List.sum
      apply List.map_congr_left
      intro q hq
      show (st.hstate.hists cut q.1).count v = _
      rw [show (makeGrouped chm (plainCutNames cfg) st.hstate.hists cut q.1).count v =
        (st.hstate.hists cut q.1).count v from congrArg (List.count v) (hpres q hq)]
    · intro t ht v
      show (makeGrouped chm (plainCutNames cfg) st.hstate.hists cut t).count v = _
      rw [hm.2 t ht, List.count_flatten, List.map_map]
      apply congrArg List.sum
      apply List.map_congr_left
      intro q hq
      show (st.hstate.hists cut q.1).count v = _
      rw [show (makeGrouped chm (plainCutNames cfg) st.hstate.hists cut q.1).count v =
        (st.hstate.hists cut q.1).count v from
          congrArg (List.count v) (hpres q (List.mem_of_mem_filter hq))]

/-- C2 witness: the two-channel pipeline run, grouped "all" count at the
filled value 2000. -/
theorem c2_grouped_hist_sum_witness :
    ((exGet resW outDflt).hists "cut1" "all").count 2000 =
      ((geds_mapping chmW).map
        (fun p => ((exGet resW outDflt).hists "cut1" p.1).count 2000)).sum :=
  (c2_grouped_hist_sum cfgW orW chmW [] [fW] (exGet resW outDflt)
    (by decide) rfl "cut1" (by decide)).1 2000
